import Mathlib

/-!
Shallow embedding of the signaling and admission-control hub of
`src/server/server.js` (MyMeet).  JavaScript `Map` objects are modelled as
insertion-ordered association lists, JavaScript `Set` objects as
insertion-ordered duplicate-free lists, and `Date.now()` is threaded as an
explicit `Int` parameter.  Every socket event handler becomes a pure function
`ServerState → payload → ServerState × List Emit`.
-/

namespace MyMeet

/-- A JavaScript `Map` with string keys: insertion-ordered association list. -/
abbrev JMap (β : Type) := List (String × β)

/-- `Map.prototype.get`. -/
def jget {β : Type} (m : JMap β) (k : String) : Option β :=
  match m with
  | [] => none
  | (k', v) :: rest => if k' = k then some v else jget rest k

/-- `Map.prototype.has`. -/
def jhas {β : Type} (m : JMap β) (k : String) : Bool :=
  (jget m k).isSome

/-- `Map.prototype.set`: update in place if the key exists, else append. -/
def jset {β : Type} (m : JMap β) (k : String) (v : β) : JMap β :=
  match m with
  | [] => [(k, v)]
  | (k', v') :: rest => if k' = k then (k', v) :: rest else (k', v') :: jset rest k v

/-- `Map.prototype.delete`. -/
def jdel {β : Type} (m : JMap β) (k : String) : JMap β :=
  match m with
  | [] => []
  | (k', v') :: rest => if k' = k then rest else (k', v') :: jdel rest k

/-- `Set.prototype.add`: append if not already present. -/
def sadd (s : List String) (x : String) : List String :=
  if x ∈ s then s else s ++ [x]

/-- JavaScript truthiness of a string value: the empty string is falsy. -/
def strTruthy (s : String) : Bool :=
  if s = "" then false else true

/-- Drop leading whitespace characters from a character list. -/
def dropLeadingWs (cs : List Char) : List Char :=
  match cs with
  | [] => []
  | c :: rest => if c.isWhitespace then dropLeadingWs rest else c :: rest

/-- `String.prototype.trim`: remove leading and trailing whitespace
(structurally recursive so that the kernel can evaluate it). -/
def jsTrim (s : String) : String :=
  ⟨(dropLeadingWs ((dropLeadingWs s.data).reverse)).reverse⟩

/-- server.js:156-159 `normalizeId`: stringify (ids are already strings here,
and a null id and the empty string both normalize to the empty string) and
trim surrounding whitespace. -/
def normalizeId (id : String) : String :=
  jsTrim id

/-- `mediaState` of a participant. -/
structure MediaState where
  audio : Bool
  video : Bool
deriving DecidableEq

/-- Entry of the per-room `rooms` map (server.js:757-764). -/
structure Participant where
  oduserId : String
  userName : String
  socketId : String
  isHost : Bool
  mediaState : MediaState
  joinedAt : Int
deriving DecidableEq

/-- Entry of `roomMetadata` (server.js:369-374).  `meetingStartTime` is absent
until `set-meeting-start-time` stores a number (server.js:939-946); the field
`waitingRoomEnabled` models the `settings` object. -/
structure RoomMeta where
  hostUserId : String
  hostSocketId : String
  createdAt : Int
  waitingRoomEnabled : Bool
  meetingStartTime : Option Int
deriving DecidableEq

/-- Entry of a per-room pending-request map (server.js:441-447).  `socketId`
is `none` when the requester socket dropped (server.js:1008). -/
structure PendingRequest where
  oduserId : String
  userName : String
  socketId : Option String
  requestedAt : Int
  status : String
deriving DecidableEq

/-- Entry of a per-room denied map (server.js:270). -/
structure DeniedInfo where
  deniedAt : Int
  reason : String
deriving DecidableEq

/-- Entry of `socketUserMap` (server.js:348, 512, 593, 667); the approve and
deny handlers register the mapping without a user name. -/
structure SocketUser where
  oduserId : String
  userName : Option String
  roomId : String
deriving DecidableEq

/-- The mutable top-level state of server.js (lines 121-141), plus the
socket.io adapter room membership (which sockets joined which room name). -/
structure ServerState where
  rooms : JMap (JMap Participant)
  roomMetadata : JMap RoomMeta
  approvedUsers : JMap (List String)
  pendingJoinRequests : JMap (JMap PendingRequest)
  deniedUsers : JMap (JMap DeniedInfo)
  socketUserMap : JMap SocketUser
  socketioRooms : JMap (List String)
deriving DecidableEq

/-- The state at server start: every map empty. -/
def emptyState : ServerState :=
  ⟨[], [], [], [], [], [], []⟩

/-- server.js:144 `REQUEST_TIMEOUT` (5 minutes, in ms). -/
def REQUEST_TIMEOUT : Int := 5 * 60 * 1000

/-- server.js:147 `DEDUP_WINDOW` (5 seconds, in ms). -/
def DEDUP_WINDOW : Int := 5000

/-- Outbound messages the hub emits (payloads restricted to computed fields). -/
inductive Msg where
  | joinDenied (reason : String) (permanent : Bool)
  | joinApproved (roomId : String) (isHost : Bool)
      (pendingRequests : Option (List PendingRequest)) (message : String)
  | waitingForApproval (message : String) (isDuplicate : Bool) (position : Option Nat)
  | joinRequest (oduserId userName requesterId : String) (requestedAt : Int)
  | errorMsg (message : String)
  | joinRequestProcessed (oduserId userName action : String)
  | allAdmitted (count : Nat)
  | joinRequestExpired (message : String)
  | offerMsg (offer sender userName oduserId : String) (mediaState : Option MediaState)
  | answerMsg (answer sender oduserId : String)
  | iceCandidateMsg (candidate sender : String)
  | renegotiationNeeded (sender : String)
  | userMediaToggle (socketId typ : String) (enabled : Bool)
  | recordingStatusChanged (isRecording : Bool) (userName socketId : String)
  | receiveMessage (message userName socketId : String)
  | transcriptionUpdate (userId userName text : String)
      (timestamp secondsIntoMeeting confidence : Int) (socketId : String)
  | meetingStartTimeMsg (startTime : Int)
  | meetingEnded (message : String) (endedBy : Option String)
  | userJoined (oduserId userName socketId : String) (isHost : Bool) (mediaState : MediaState)
  | existingParticipants (ps : List Participant)
  | pendingJoinRequestsMsg (reqs : List PendingRequest)
  | userLeft (socketId : String) (userName : Option String) (oduserId : Option String)
      (wasHost : Bool)
  | hostLeft (message : String) (hostName : Option String)
  | userDisconnected (socketId oduserId : String)
deriving DecidableEq

/-- Where an emission is addressed: a single socket (`io.to(socketId)` or
`socket.emit`), every socket joined to a room (`io.to(roomId)`), or every
socket joined to a room except the sender (`socket.to(roomId)`). -/
inductive Dest where
  | socket (sid : String)
  | roomAll (roomId : String)
  | roomOthers (roomId : String) (sender : String)
deriving DecidableEq

/-- One outbound emission. -/
structure Emit where
  dest : Dest
  msg : Msg
deriving DecidableEq

/-- Whether socket `sid` receives emission `e`, given the socket.io room
membership recorded in `st`. -/
def receives (st : ServerState) (sid : String) (e : Emit) : Bool :=
  match e.dest with
  | .socket s => if s = sid then true else false
  | .roomAll r => ((jget st.socketioRooms r).getD []).contains sid
  | .roomOthers r sender =>
      if sid = sender then false else ((jget st.socketioRooms r).getD []).contains sid

/-- `socket.join(roomId)` on the socket.io adapter. -/
def socketJoin (st : ServerState) (socketId roomId : String) : ServerState :=
  { st with socketioRooms :=
      (jset st.socketioRooms roomId (sadd ((jget st.socketioRooms roomId).getD []) socketId)) }

/-- `socket.leave(roomId)` on the socket.io adapter. -/
def socketLeave (st : ServerState) (socketId roomId : String) : ServerState :=
  match jget st.socketioRooms roomId with
  | none => st
  | some members =>
      { st with socketioRooms :=
          (jset st.socketioRooms roomId (members.filter (fun s => s ≠ socketId))) }

/-- server.js:164-168 `isHost`. -/
def isHost (st : ServerState) (roomId oduserId : String) : Bool :=
  match jget st.roomMetadata roomId with
  | none => false
  | some metadata => normalizeId metadata.hostUserId = normalizeId oduserId

/-- server.js:173-181 `isApproved`: linear scan with normalized comparison. -/
def isApproved (st : ServerState) (roomId oduserId : String) : Bool :=
  match jget st.approvedUsers roomId with
  | none => false
  | some approved => approved.any (fun id => normalizeId id = normalizeId oduserId)

/-- server.js:186-194 `isDenied`: linear scan over keys with normalized
comparison. -/
def isDenied (st : ServerState) (roomId oduserId : String) : Bool :=
  match jget st.deniedUsers roomId with
  | none => false
  | some denied => denied.any (fun p => normalizeId p.1 = normalizeId oduserId)

/-- server.js:199-209 `hasPendingRequest`: raw (non-normalized) key lookup,
then the dedup-window test `Date.now() - requestedAt < DEDUP_WINDOW`. -/
def hasPendingRequest (st : ServerState) (roomId oduserId : String) (now : Int) : Bool :=
  match jget st.pendingJoinRequests roomId with
  | none => false
  | some requests =>
      match jget requests oduserId with
      | none => false
      | some existingRequest => now - existingRequest.requestedAt < DEDUP_WINDOW

/-- server.js:214-217 `getHostSocketId`. -/
def getHostSocketId (st : ServerState) (roomId : String) : Option String :=
  (jget st.roomMetadata roomId).map (fun m => m.hostSocketId)

/-- server.js:222-228 `updateHostSocketId`. -/
def updateHostSocketId (st : ServerState) (roomId newSocketId : String) : ServerState :=
  match jget st.roomMetadata roomId with
  | none => st
  | some metadata =>
      { st with roomMetadata :=
          (jset st.roomMetadata roomId { metadata with hostSocketId := newSocketId }) }

/-- Delete the first entry whose normalized key equals `nid` (the
loop-with-break pattern of server.js:243-248 and 254-259). -/
def delFirstNorm {β : Type} (m : JMap β) (nid : String) : JMap β :=
  match m with
  | [] => []
  | (k, v) :: rest =>
      if normalizeId k = nid then rest else (k, v) :: delFirstNorm rest nid

/-- Find the first entry whose normalized key equals `nid` (the lookup loops
of server.js:524-532 and 601-609). -/
def findFirstNorm {β : Type} (m : JMap β) (nid : String) : Option (String × β) :=
  match m with
  | [] => none
  | (k, v) :: rest =>
      if normalizeId k = nid then some (k, v) else findFirstNorm rest nid

/-- server.js:233-261 `approveUser`: add the normalized id to the approved
set, remove the first matching pending entry, remove the first matching
denied entry. -/
def approveUser (st : ServerState) (roomId oduserId : String) : ServerState :=
  let normalizedId := normalizeId oduserId
  let st1 := { st with approvedUsers :=
      (jset st.approvedUsers roomId (sadd ((jget st.approvedUsers roomId).getD []) normalizedId)) }
  let st2 := match jget st1.pendingJoinRequests roomId with
    | none => st1
    | some requests =>
        { st1 with pendingJoinRequests :=
            (jset st1.pendingJoinRequests roomId (delFirstNorm requests normalizedId)) }
  match jget st2.deniedUsers roomId with
  | none => st2
  | some denied =>
      { st2 with deniedUsers :=
          (jset st2.deniedUsers roomId (delFirstNorm denied normalizedId)) }

/-- server.js:266-277 `denyUser`: record the raw id in the denied map and
delete the raw id from the pending map. -/
def denyUser (st : ServerState) (roomId oduserId reason : String) (now : Int) : ServerState :=
  let st1 := { st with deniedUsers :=
      (jset st.deniedUsers roomId
        (jset ((jget st.deniedUsers roomId).getD []) oduserId ⟨now, reason⟩)) }
  match jget st1.pendingJoinRequests roomId with
  | none => st1
  | some requests =>
      { st1 with pendingJoinRequests :=
          (jset st1.pendingJoinRequests roomId (jdel requests oduserId)) }

/-- server.js:282-289 `cleanupRoom`: drop all five per-room records. -/
def cleanupRoom (st : ServerState) (roomId : String) : ServerState :=
  { st with
      rooms := jdel st.rooms roomId,
      roomMetadata := jdel st.roomMetadata roomId,
      approvedUsers := jdel st.approvedUsers roomId,
      pendingJoinRequests := jdel st.pendingJoinRequests roomId,
      deniedUsers := jdel st.deniedUsers roomId }

/-- server.js:294-303 `getPendingRequests`: values not yet expired. -/
def getPendingRequests (st : ServerState) (roomId : String) (now : Int) :
    List PendingRequest :=
  match jget st.pendingJoinRequests roomId with
  | none => []
  | some requests =>
      (requests.map Prod.snd).filter (fun req => now - req.requestedAt < REQUEST_TIMEOUT)

/-- server.js:308-324 `cleanupExpiredRequests`: delete every request strictly
older than `REQUEST_TIMEOUT` and notify its stored socket, if any. -/
def cleanupExpiredRequests (st : ServerState) (roomId : String) (now : Int) :
    ServerState × List Emit :=
  match jget st.pendingJoinRequests roomId with
  | none => (st, [])
  | some requests =>
      let keep := requests.filter (fun p => ¬ (now - p.2.requestedAt > REQUEST_TIMEOUT))
      let expired := requests.filter (fun p => now - p.2.requestedAt > REQUEST_TIMEOUT)
      let emits := expired.filterMap (fun p =>
        p.2.socketId.map (fun sid =>
          Emit.mk (Dest.socket sid)
            (Msg.joinRequestExpired "Your join request has expired. Please try again.")))
      ({ st with pendingJoinRequests := jset st.pendingJoinRequests roomId keep }, emits)

/-- server.js:327-331: the once-per-minute sweeper visits every room key of
`pendingJoinRequests`. -/
def sweeperTick (st : ServerState) (now : Int) : ServerState × List Emit :=
  st.pendingJoinRequests.foldl
    (fun acc p =>
      let r := cleanupExpiredRequests acc.1 p.1 now
      (r.1, acc.2 ++ r.2))
    (st, [])

/-- server.js:343-468 handler for `request-join-room`.  The denied-branch
reason is read back with a raw (non-normalized) key lookup; a missing entry
falls back to the default message. -/
def requestJoinRoom (st : ServerState) (socketId roomId oduserId userName : String)
    (isRejoin : Bool) (now : Int) : ServerState × List Emit :=
  let st := { st with socketUserMap :=
      (jset st.socketUserMap socketId ⟨oduserId, some userName, roomId⟩) }
  if isDenied st roomId oduserId then
    let dmap := (jget st.deniedUsers roomId).getD []
    let storedReason := ((jget dmap oduserId).map DeniedInfo.reason).getD ""
    let reason :=
      if storedReason = "" then "You have been denied access to this meeting."
      else storedReason
    (st, [⟨Dest.socket socketId, Msg.joinDenied reason false⟩])
  else
    match jget st.roomMetadata roomId with
    | none =>
        let st := { st with roomMetadata :=
            (jset st.roomMetadata roomId ⟨oduserId, socketId, now, true, none⟩) }
        let st := approveUser st roomId oduserId
        (st, [⟨Dest.socket socketId,
          Msg.joinApproved roomId true none "You are the host of this meeting."⟩])
    | some _ =>
        if isHost st roomId oduserId then
          let st := updateHostSocketId st roomId socketId
          let st := approveUser st roomId oduserId
          let pendingRequests := getPendingRequests st roomId now
          (st, [⟨Dest.socket socketId,
            Msg.joinApproved roomId true (some pendingRequests)
              "Welcome back! You are the host."⟩])
        else if isApproved st roomId oduserId then
          (st, [⟨Dest.socket socketId,
            Msg.joinApproved roomId false none
              (if isRejoin then "Reconnected successfully."
               else "You have been approved to join.")⟩])
        else if hasPendingRequest st roomId oduserId now then
          (st, [⟨Dest.socket socketId,
            Msg.waitingForApproval
              "Your request is pending. Please wait for the host to admit you."
              true none⟩])
        else
          let request : PendingRequest := ⟨oduserId, userName, some socketId, now, "pending"⟩
          let roomRequests := jset ((jget st.pendingJoinRequests roomId).getD []) oduserId request
          let st := { st with pendingJoinRequests :=
              (jset st.pendingJoinRequests roomId roomRequests) }
          let waitingEmit : Emit := ⟨Dest.socket socketId,
            Msg.waitingForApproval "Waiting for the host to admit you..." false
              (some roomRequests.length)⟩
          match getHostSocketId st roomId with
          | some hostSocketId =>
              if strTruthy hostSocketId then
                (st, [waitingEmit,
                  ⟨Dest.socket hostSocketId, Msg.joinRequest oduserId userName socketId now⟩])
              else (st, [waitingEmit])
          | none => (st, [waitingEmit])

/-- server.js:473-565 handler for `approve-join-request`.  The only
authorization check is that the client-asserted `approverUserId` is truthy
and normalizes to the stored `hostUserId`. -/
def approveJoinRequest (st : ServerState) (socketId roomId oduserId approverUserId : String) :
    ServerState × List Emit :=
  match jget st.roomMetadata roomId with
  | none => (st, [⟨Dest.socket socketId, Msg.errorMsg "Room not found."⟩])
  | some metadata =>
      let isApproverHost :=
        strTruthy approverUserId &&
          (normalizeId approverUserId = normalizeId metadata.hostUserId)
      if ¬ isApproverHost then
        (st, [⟨Dest.socket socketId, Msg.errorMsg "Only the host can approve join requests."⟩])
      else
        let st := updateHostSocketId st roomId socketId
        let st := { st with socketUserMap :=
            (jset st.socketUserMap socketId ⟨approverUserId, none, roomId⟩) }
        let st := socketJoin st socketId roomId
        let found := findFirstNorm ((jget st.pendingJoinRequests roomId).getD [])
          (normalizeId oduserId)
        match found with
        | none =>
            (st, [⟨Dest.socket socketId,
              Msg.errorMsg "Join request not found or already processed."⟩])
        | some (requestKey, request) =>
            let st := approveUser st roomId oduserId
            let st := match jget st.pendingJoinRequests roomId with
              | none => st
              | some requests =>
                  { st with pendingJoinRequests :=
                      (jset st.pendingJoinRequests roomId (jdel requests requestKey)) }
            let toUser : List Emit := match request.socketId with
              | some sid => [⟨Dest.socket sid,
                  Msg.joinApproved roomId false none
                    "The host has admitted you to the meeting."⟩]
              | none => []
            (st, toUser ++
              [⟨Dest.socket socketId,
                Msg.joinRequestProcessed oduserId request.userName "approved"⟩])

/-- server.js:570-639 handler for `deny-join-request`; same single
authorization check as approval. -/
def denyJoinRequest (st : ServerState) (socketId roomId oduserId reason approverUserId : String)
    (now : Int) : ServerState × List Emit :=
  match jget st.roomMetadata roomId with
  | none => (st, [⟨Dest.socket socketId, Msg.errorMsg "Room not found."⟩])
  | some metadata =>
      let isDenierHost :=
        strTruthy approverUserId &&
          (normalizeId approverUserId = normalizeId metadata.hostUserId)
      if ¬ isDenierHost then
        (st, [⟨Dest.socket socketId, Msg.errorMsg "Only the host can deny join requests."⟩])
      else
        let st := updateHostSocketId st roomId socketId
        let st := { st with socketUserMap :=
            (jset st.socketUserMap socketId ⟨approverUserId, none, roomId⟩) }
        let found := findFirstNorm ((jget st.pendingJoinRequests roomId).getD [])
          (normalizeId oduserId)
        match found with
        | none =>
            (st, [⟨Dest.socket socketId,
              Msg.errorMsg "Join request not found or already processed."⟩])
        | some (requestKey, request) =>
            let denyReason :=
              if reason = "" then "The host has denied your request to join." else reason
            let st := denyUser st roomId oduserId denyReason now
            let st := match jget st.pendingJoinRequests roomId with
              | none => st
              | some requests =>
                  { st with pendingJoinRequests :=
                      (jset st.pendingJoinRequests roomId (jdel requests requestKey)) }
            let toUser : List Emit := match request.socketId with
              | some sid => [⟨Dest.socket sid, Msg.joinDenied denyReason false⟩]
              | none => []
            (st, toUser ++
              [⟨Dest.socket socketId,
                Msg.joinRequestProcessed oduserId request.userName "denied"⟩])

/-- server.js:644-692 handler for `admit-all-waiting`; same single
authorization check, then every pending request is approved in queue order. -/
def admitAllWaiting (st : ServerState) (socketId roomId approverUserId : String) :
    ServerState × List Emit :=
  match jget st.roomMetadata roomId with
  | none => (st, [⟨Dest.socket socketId, Msg.errorMsg "Room not found."⟩])
  | some metadata =>
      let isUserHost :=
        strTruthy approverUserId &&
          (normalizeId approverUserId = normalizeId metadata.hostUserId)
      if ¬ isUserHost then
        (st, [⟨Dest.socket socketId, Msg.errorMsg "Only the host can admit all users."⟩])
      else
        let st := updateHostSocketId st roomId socketId
        let st := { st with socketUserMap :=
            (jset st.socketUserMap socketId ⟨approverUserId, none, roomId⟩) }
        match jget st.pendingJoinRequests roomId with
        | none => (st, [⟨Dest.socket socketId, Msg.errorMsg "No pending requests."⟩])
        | some requests =>
            if requests.length = 0 then
              (st, [⟨Dest.socket socketId, Msg.errorMsg "No pending requests."⟩])
            else
              let admittedCount := requests.length
              let stepFn := fun (acc : ServerState × List Emit) (p : String × PendingRequest) =>
                let st1 := approveUser acc.1 roomId p.1
                let em := match p.2.socketId with
                  | some sid => acc.2 ++ [⟨Dest.socket sid,
                      Msg.joinApproved roomId false none
                        "The host has admitted you to the meeting."⟩]
                  | none => acc.2
                (st1, em)
              let loopResult := requests.foldl stepFn (st, [])
              let st := loopResult.1
              let st := { st with pendingJoinRequests :=
                  (jset st.pendingJoinRequests roomId []) }
              (st, loopResult.2 ++
                [⟨Dest.socket socketId, Msg.allAdmitted admittedCount⟩])

/-- server.js:697-802 handler for `join-room` (the `existing-participants`
payload is modelled by the stored participant records; the source projects
away `joinedAt`). -/
def joinRoom (st : ServerState) (socketId roomId oduserId userName : String)
    (mediaState : Option MediaState) (now : Int) : ServerState × List Emit :=
  let userIsHostCheck := isHost st roomId oduserId
  let userIsApprovedCheck := isApproved st roomId oduserId
  if ¬ userIsApprovedCheck && ¬ userIsHostCheck then
    (st, [⟨Dest.socket socketId, Msg.errorMsg "You are not approved to join this meeting."⟩])
  else
    let oldSocketId := match jget st.rooms roomId with
      | none => none
      | some room =>
          (room.find? (fun p =>
            normalizeId p.2.oduserId = normalizeId oduserId ∧ p.1 ≠ socketId)).map Prod.fst
    let st := socketJoin st socketId roomId
    let st := if jhas st.rooms roomId then st
      else { st with rooms := (jset st.rooms roomId []) }
    let currentRoom := (jget st.rooms roomId).getD []
    let stAndOldEmits := match oldSocketId with
      | some old =>
          ({ st with rooms := (jset st.rooms roomId (jdel currentRoom old)) },
           [Emit.mk (Dest.roomOthers roomId socketId) (Msg.userDisconnected old oduserId)])
      | none => (st, ([] : List Emit))
    let st := stAndOldEmits.1
    let userIsHost := isHost st roomId oduserId
    let st := if userIsHost then updateHostSocketId st roomId socketId else st
    let participant : Participant :=
      ⟨oduserId, userName, socketId, userIsHost, mediaState.getD ⟨true, true⟩, now⟩
    let newRoom := jset ((jget st.rooms roomId).getD []) socketId participant
    let st := { st with rooms := (jset st.rooms roomId newRoom) }
    let otherParticipants :=
      (newRoom.map Prod.snd).filter (fun p => p.socketId ≠ socketId)
    let pendingEmits : List Emit :=
      if userIsHost then
        let pendingRequests := getPendingRequests st roomId now
        if pendingRequests.length > 0 then
          [⟨Dest.socket socketId, Msg.pendingJoinRequestsMsg pendingRequests⟩]
        else []
      else []
    (st, stAndOldEmits.2 ++
      [⟨Dest.socket socketId, Msg.existingParticipants otherParticipants⟩] ++
      pendingEmits ++
      [⟨Dest.roomOthers roomId socketId,
        Msg.userJoined oduserId userName socketId userIsHost (mediaState.getD ⟨true, true⟩)⟩])

/-- server.js:817-825 handler for `update-waiting-socket`. -/
def updateWaitingSocket (st : ServerState) (socketId roomId oduserId : String) :
    ServerState × List Emit :=
  match jget st.pendingJoinRequests roomId with
  | none => (st, [])
  | some requests =>
      match jget requests oduserId with
      | none => (st, [])
      | some request =>
          ({ st with pendingJoinRequests :=
              (jset st.pendingJoinRequests roomId
                (jset requests oduserId { request with socketId := some socketId })) }, [])

/-- server.js:830-839 handler for `offer`: unconditional relay to `to`. -/
def relayOffer (st : ServerState) (offer target sender userName oduserId : String)
    (mediaState : Option MediaState) : ServerState × List Emit :=
  (st, [⟨Dest.socket target, Msg.offerMsg offer sender userName oduserId mediaState⟩])

/-- server.js:844-847 handler for `answer`: unconditional relay to `to`. -/
def relayAnswer (st : ServerState) (answer target sender oduserId : String) :
    ServerState × List Emit :=
  (st, [⟨Dest.socket target, Msg.answerMsg answer sender oduserId⟩])

/-- server.js:852-855 handler for `ice-candidate`: unconditional relay. -/
def relayIceCandidate (st : ServerState) (candidate target sender : String) :
    ServerState × List Emit :=
  (st, [⟨Dest.socket target, Msg.iceCandidateMsg candidate sender⟩])

/-- server.js:860-863 handler for `request-renegotiation`. -/
def requestRenegotiation (st : ServerState) (target sender : String) :
    ServerState × List Emit :=
  (st, [⟨Dest.socket target, Msg.renegotiationNeeded sender⟩])

/-- server.js:868-884 handler for `toggle-media`: update the stored media
state only when the sender is a participant of the room; broadcast to the
other sockets of the room either way. -/
def toggleMedia (st : ServerState) (socketId roomId typ : String) (enabled : Bool) :
    ServerState × List Emit :=
  let st' := match jget st.rooms roomId with
    | none => st
    | some room =>
        match jget room socketId with
        | none => st
        | some userData =>
            let userData' :=
              if typ = "audio" then
                { userData with mediaState := { userData.mediaState with audio := enabled } }
              else if typ = "video" then
                { userData with mediaState := { userData.mediaState with video := enabled } }
              else userData
            { st with rooms := (jset st.rooms roomId (jset room socketId userData')) }
  (st', [⟨Dest.roomOthers roomId socketId, Msg.userMediaToggle socketId typ enabled⟩])

/-- server.js:889-896 handler for `recording-status`. -/
def recordingStatus (st : ServerState) (socketId roomId : String) (isRecording : Bool)
    (userName : String) : ServerState × List Emit :=
  (st, [⟨Dest.roomOthers roomId socketId,
    Msg.recordingStatusChanged isRecording userName socketId⟩])

/-- server.js:901-908 handler for `send-message`: echo to the whole room,
sender included. -/
def sendMessage (st : ServerState) (socketId roomId message userName : String) :
    ServerState × List Emit :=
  (st, [⟨Dest.roomAll roomId, Msg.receiveMessage message userName socketId⟩])

/-- server.js:913-926 handler for `transcription-entry`: broadcast the update
to the whole room with `io.to(roomId)`, which includes the sender. -/
def transcriptionEntry (st : ServerState) (socketId roomId userId userName text : String)
    (timestamp secondsIntoMeeting confidence : Int) : ServerState × List Emit :=
  (st, [⟨Dest.roomAll roomId,
    Msg.transcriptionUpdate userId userName text timestamp secondsIntoMeeting confidence
      socketId⟩])

/-- server.js:929-936 handler for `request-meeting-start-time`: reply only
when the stored value is truthy (a stored 0 is falsy and gets no reply). -/
def requestMeetingStartTime (st : ServerState) (socketId roomId : String) :
    ServerState × List Emit :=
  match jget st.roomMetadata roomId with
  | none => (st, [])
  | some metadata =>
      match metadata.meetingStartTime with
      | none => (st, [])
      | some t =>
          if t = 0 then (st, [])
          else (st, [⟨Dest.socket socketId, Msg.meetingStartTimeMsg t⟩])

/-- server.js:939-946 handler for `set-meeting-start-time`: store only when
the current value is falsy (absent or 0). -/
def setMeetingStartTime (st : ServerState) (roomId : String) (startTime : Int) :
    ServerState × List Emit :=
  match jget st.roomMetadata roomId with
  | none => (st, [])
  | some metadata =>
      let currentFalsy := match metadata.meetingStartTime with
        | none => true
        | some t => t = 0
      if currentFalsy then
        ({ st with roomMetadata :=
            (jset st.roomMetadata roomId
              { metadata with meetingStartTime := some startTime }) }, [])
      else (st, [])

/-- server.js:1026-1058 `handleUserLeave`.  The host comparison uses strict
equality on the raw ids; an empty room is cleaned up regardless of pending
requests. -/
def handleUserLeave (st : ServerState) (socketId roomId oduserId : String) :
    ServerState × List Emit :=
  match jget st.rooms roomId with
  | none => (st, [])
  | some room =>
      let userData := jget room socketId
      let room' := jdel room socketId
      let st1 := { st with rooms := (jset st.rooms roomId room') }
      let wasHost := match jget st1.roomMetadata roomId with
        | none => false
        | some metadata => metadata.hostUserId = oduserId
      let branch :=
        if room'.length = 0 then (cleanupRoom st1 roomId, ([] : List Emit))
        else if wasHost then
          (st1, [Emit.mk (Dest.roomAll roomId)
            (Msg.hostLeft "The host has left the meeting." (userData.map Participant.userName))])
        else (st1, ([] : List Emit))
      let leftOduserId :=
        if strTruthy oduserId then some oduserId else userData.map Participant.oduserId
      (socketLeave branch.1 socketId roomId,
       branch.2 ++
        [⟨Dest.roomOthers roomId socketId,
          Msg.userLeft socketId (userData.map Participant.userName) leftOduserId wasHost⟩])

/-- server.js:951-953 handler for `leave-room`. -/
def leaveRoom (st : ServerState) (socketId roomId oduserId : String) :
    ServerState × List Emit :=
  handleUserLeave st socketId roomId oduserId

/-- server.js:958-989 handler for `end-meeting`: host verification compares
the raw stored participant id with `hostUserId` under strict equality. -/
def endMeeting (st : ServerState) (socketId roomId : String) : ServerState × List Emit :=
  match jget st.roomMetadata roomId with
  | none => (st, [])
  | some metadata =>
      let userData := (jget st.rooms roomId).bind (fun room => jget room socketId)
      match userData with
      | none => (st, [⟨Dest.socket socketId, Msg.errorMsg "Only the host can end the meeting."⟩])
      | some u =>
          if u.oduserId = metadata.hostUserId then
            let pendingEmits : List Emit :=
              match jget st.pendingJoinRequests roomId with
              | none => []
              | some requests =>
                  requests.filterMap (fun p =>
                    p.2.socketId.map (fun sid =>
                      Emit.mk (Dest.socket sid)
                        (Msg.meetingEnded "The meeting has ended." (some u.userName))))
            (cleanupRoom st roomId,
             [⟨Dest.roomAll roomId,
                Msg.meetingEnded "The host has ended the meeting." (some u.userName)⟩] ++
              pendingEmits)
          else
            (st, [⟨Dest.socket socketId, Msg.errorMsg "Only the host can end the meeting."⟩])

/-- The admission-control event alphabet of claim C5. -/
inductive AdmissionEvent where
  | requestJoin (socketId roomId oduserId userName : String) (isRejoin : Bool) (now : Int)
  | approve (socketId roomId oduserId approverUserId : String)
  | deny (socketId roomId oduserId reason approverUserId : String) (now : Int)
  | admitAll (socketId roomId approverUserId : String)
deriving DecidableEq

/-- State transition of one admission event. -/
def stepAdmission (st : ServerState) (e : AdmissionEvent) : ServerState :=
  match e with
  | .requestJoin sid r u n rej now => (requestJoinRoom st sid r u n rej now).1
  | .approve sid r u a => (approveJoinRequest st sid r u a).1
  | .deny sid r u reason a now => (denyJoinRequest st sid r u reason a now).1
  | .admitAll sid r a => (admitAllWaiting st sid r a).1

/-- Run a sequence of admission events. -/
def runAdmission (st : ServerState) (es : List AdmissionEvent) : ServerState :=
  es.foldl stepAdmission st

/-- Raw keys of the pending-request map of a room. -/
def pendKeys (st : ServerState) (r : String) : List String :=
  ((jget st.pendingJoinRequests r).getD []).map Prod.fst

/-- Raw keys of the denied map of a room. -/
def denKeys (st : ServerState) (r : String) : List String :=
  ((jget st.deniedUsers r).getD []).map Prod.fst

/-- Stored approved set of a room. -/
def appList (st : ServerState) (r : String) : List String :=
  (jget st.approvedUsers r).getD []

/-- Membership of a user in the pending queue of a room, under the same
normalized comparison the server uses everywhere for identity. -/
def inPendingSet (st : ServerState) (r u : String) : Bool :=
  ((jget st.pendingJoinRequests r).getD []).any
    (fun p => normalizeId p.1 = normalizeId u)

/-- Number of `join-request` emissions in an emission list. -/
def countJoinRequests (es : List Emit) : Nat :=
  (es.filter (fun e =>
    match e.msg with
    | .joinRequest _ _ _ _ => true
    | _ => false)).length

/-- Whether an emission list carries a `join-request-processed` confirmation
with the given action — the observable marking a successful approval or
denial. -/
def emitsProcessed (es : List Emit) (action : String) : Bool :=
  es.any (fun e =>
    match e.msg with
    | .joinRequestProcessed _ _ a => a = action
    | _ => false)

/-- Whether an emission list carries any `error` message. -/
def emitsError (es : List Emit) : Bool :=
  es.any (fun e =>
    match e.msg with
    | .errorMsg _ => true
    | _ => false)

/-- The ids an admission event stores raw as map keys (pending keys come from
`request-join-room`, denied keys from `deny-join-request`) are
whitespace-trimmed. -/
def storedIdsTrimmed : AdmissionEvent → Prop
  | .requestJoin _ _ u _ _ _ => jsTrim u = u
  | .deny _ _ u _ _ _ => jsTrim u = u
  | _ => True

/-- Per-room admission bookkeeping invariant over the approved list, the
pending keys and the denied keys: everything is trimmed and duplicate-free
and the three collections are pairwise disjoint. -/
def RoomInvL (A PK DK : List String) : Prop :=
  (∀ k ∈ A, jsTrim k = k) ∧ A.Nodup ∧
  (∀ k ∈ PK, jsTrim k = k) ∧ PK.Nodup ∧
  (∀ k ∈ DK, jsTrim k = k) ∧ DK.Nodup ∧
  (∀ x ∈ A, x ∉ PK ∧ x ∉ DK) ∧
  (∀ x ∈ PK, x ∉ DK)

/-- The admission bookkeeping invariant of a state: every room satisfies
`RoomInvL`. -/
def AdmInv (st : ServerState) : Prop :=
  ∀ r : String, RoomInvL (appList st r) (pendKeys st r) (denKeys st r)

/-- Well-formedness of the five per-room top-level maps: no duplicate room
keys (true of every state the server can reach, since JavaScript maps cannot
hold duplicate keys). -/
def WFState (st : ServerState) : Prop :=
  (st.rooms.map Prod.fst).Nodup ∧
  (st.roomMetadata.map Prod.fst).Nodup ∧
  (st.approvedUsers.map Prod.fst).Nodup ∧
  (st.pendingJoinRequests.map Prod.fst).Nodup ∧
  (st.deniedUsers.map Prod.fst).Nodup

section MapLemmas

variable {β : Type}

theorem jget_jset_self (m : JMap β) (k : String) (v : β) :
    jget (jset m k v) k = some v := by
  induction m with
  | nil => simp [jget, jset]
  | cons p rest ih =>
      obtain ⟨k', v'⟩ := p
      by_cases h : k' = k
      · simp [jget, jset, h]
      · simp [jget, jset, h, ih]

theorem jget_jset_ne (m : JMap β) (k k' : String) (v : β) (h : k' ≠ k) :
    jget (jset m k v) k' = jget m k' := by
  induction m with
  | nil =>
      have hne : ¬ k = k' := fun hh => h hh.symm
      simp [jget, jset, hne]
  | cons p rest ih =>
      obtain ⟨k₀, v₀⟩ := p
      by_cases h0 : k₀ = k
      · subst h0
        have hne : ¬ k₀ = k' := fun hh => h hh.symm
        simp [jget, jset, hne]
      · simp only [jset, if_neg h0]
        by_cases h1 : k₀ = k'
        · simp [jget, h1]
        · simp [jget, h1, ih]

theorem keys_jset_of_mem (m : JMap β) (k : String) (v : β)
    (h : k ∈ m.map Prod.fst) : (jset m k v).map Prod.fst = m.map Prod.fst := by
  induction m with
  | nil => simp at h
  | cons p rest ih =>
      obtain ⟨k₀, v₀⟩ := p
      by_cases h0 : k₀ = k
      · simp [jset, h0]
      · simp only [List.map_cons] at h
        rcases List.mem_cons.mp h with h1 | h1
        · exact absurd h1.symm h0
        · simp [jset, h0, ih h1]

theorem keys_jset_of_not_mem (m : JMap β) (k : String) (v : β)
    (h : k ∉ m.map Prod.fst) : (jset m k v).map Prod.fst = m.map Prod.fst ++ [k] := by
  induction m with
  | nil => simp [jset]
  | cons p rest ih =>
      obtain ⟨k₀, v₀⟩ := p
      simp only [List.map_cons, List.mem_cons] at h
      push_neg at h
      simp [jset, Ne.symm h.1, ih h.2]

theorem mem_keys_jset (m : JMap β) (k x : String) (v : β) :
    x ∈ (jset m k v).map Prod.fst ↔ x ∈ m.map Prod.fst ∨ x = k := by
  by_cases h : k ∈ m.map Prod.fst
  · rw [keys_jset_of_mem m k v h]
    constructor
    · exact fun hx => Or.inl hx
    · rintro (hx | rfl) <;> [exact hx; exact h]
  · rw [keys_jset_of_not_mem m k v h]
    simp

theorem nodup_keys_jset (m : JMap β) (k : String) (v : β)
    (h : (m.map Prod.fst).Nodup) : ((jset m k v).map Prod.fst).Nodup := by
  by_cases hk : k ∈ m.map Prod.fst
  · rwa [keys_jset_of_mem m k v hk]
  · rw [keys_jset_of_not_mem m k v hk]
    simp [List.nodup_append, h, hk]

theorem jdel_sublist (m : JMap β) (k : String) : List.Sublist (jdel m k) m := by
  induction m with
  | nil => simp [jdel]
  | cons p rest ih =>
      obtain ⟨k₀, v₀⟩ := p
      by_cases h0 : k₀ = k
      · simp [jdel, h0]
      · simpa [jdel, h0] using List.Sublist.cons₂ (k₀, v₀) ih

theorem delFirstNorm_sublist (m : JMap β) (t : String) :
    List.Sublist (delFirstNorm m t) m := by
  induction m with
  | nil => simp [delFirstNorm]
  | cons p rest ih =>
      obtain ⟨k₀, v₀⟩ := p
      by_cases h0 : normalizeId k₀ = t
      · simp [delFirstNorm, h0]
      · simpa [delFirstNorm, h0] using List.Sublist.cons₂ (k₀, v₀) ih

theorem mem_keys_of_mem_keys_jdel (m : JMap β) (k x : String)
    (h : x ∈ (jdel m k).map Prod.fst) : x ∈ m.map Prod.fst :=
  ((jdel_sublist m k).map Prod.fst).mem h

theorem mem_keys_of_mem_keys_delFirstNorm (m : JMap β) (t x : String)
    (h : x ∈ (delFirstNorm m t).map Prod.fst) : x ∈ m.map Prod.fst :=
  ((delFirstNorm_sublist m t).map Prod.fst).mem h

theorem not_mem_keys_jdel (m : JMap β) (k : String)
    (h : (m.map Prod.fst).Nodup) : k ∉ (jdel m k).map Prod.fst := by
  induction m with
  | nil => simp [jdel]
  | cons p rest ih =>
      obtain ⟨k₀, v₀⟩ := p
      simp only [List.map_cons, List.nodup_cons] at h
      by_cases h0 : k₀ = k
      · subst h0
        simpa [jdel] using h.1
      · simp only [jdel, if_neg h0, List.map_cons, List.mem_cons]
        rintro (h1 | h1)
        · exact h0 h1.symm
        · exact ih h.2 h1

theorem not_mem_keys_delFirstNorm (m : JMap β) (t : String)
    (htrim : ∀ k ∈ m.map Prod.fst, jsTrim k = k)
    (hnodup : (m.map Prod.fst).Nodup) :
    t ∉ (delFirstNorm m t).map Prod.fst := by
  induction m with
  | nil => simp [delFirstNorm]
  | cons p rest ih =>
      obtain ⟨k₀, v₀⟩ := p
      simp only [List.map_cons, List.nodup_cons] at hnodup
      have htrim0 : jsTrim k₀ = k₀ := htrim k₀ (by simp)
      have htrimRest : ∀ k ∈ rest.map Prod.fst, jsTrim k = k :=
        fun k hk => htrim k (by simp [hk])
      by_cases h0 : normalizeId k₀ = t
      · have hk0t : k₀ = t := by
          have hn : normalizeId k₀ = k₀ := htrim0
          rw [hn] at h0
          exact h0
        subst hk0t
        simpa [delFirstNorm, h0] using hnodup.1
      · simp only [delFirstNorm, if_neg h0, List.map_cons, List.mem_cons]
        rintro (h1 | h1)
        · refine h0 ?_
          have hn : normalizeId k₀ = k₀ := htrim0
          rw [hn, h1]
        · exact ih htrimRest hnodup.2 h1

theorem jget_isSome_iff_mem_keys (m : JMap β) (k : String) :
    (jget m k).isSome ↔ k ∈ m.map Prod.fst := by
  induction m with
  | nil => simp [jget]
  | cons p rest ih =>
      obtain ⟨k₀, v₀⟩ := p
      by_cases h0 : k₀ = k
      · simp [jget, h0]
      · simp [jget, h0, ih, Ne.symm h0]

theorem jget_eq_none_of_not_mem_keys (m : JMap β) (k : String)
    (h : k ∉ m.map Prod.fst) : jget m k = none := by
  have := (jget_isSome_iff_mem_keys m k).not.mpr h
  cases hh : jget m k
  · rfl
  · exact absurd (by simp [hh]) this

theorem mem_keys_of_findFirstNorm (m : JMap β) (t k : String) (v : β)
    (h : findFirstNorm m t = some (k, v)) :
    k ∈ m.map Prod.fst ∧ normalizeId k = t := by
  induction m with
  | nil => simp [findFirstNorm] at h
  | cons p rest ih =>
      obtain ⟨k₀, v₀⟩ := p
      by_cases h0 : normalizeId k₀ = t
      · simp only [findFirstNorm, if_pos h0, Option.some.injEq, Prod.mk.injEq] at h
        exact ⟨by simp [h.1], h.1 ▸ h0⟩
      · simp only [findFirstNorm, if_neg h0] at h
        obtain ⟨h1, h2⟩ := ih h
        exact ⟨by simp [h1], h2⟩

theorem findFirstNorm_eq_none (m : JMap β) (t : String)
    (h : ∀ k ∈ m.map Prod.fst, normalizeId k ≠ t) : findFirstNorm m t = none := by
  induction m with
  | nil => simp [findFirstNorm]
  | cons p rest ih =>
      obtain ⟨k₀, v₀⟩ := p
      have h0 : normalizeId k₀ ≠ t := h k₀ (by simp)
      simp only [findFirstNorm, if_neg h0]
      exact ih fun k hk => h k (by simp [hk])

theorem jget_jdel_ne (m : JMap β) (k k' : String) (h : k' ≠ k) :
    jget (jdel m k) k' = jget m k' := by
  induction m with
  | nil => simp [jdel]
  | cons p rest ih =>
      obtain ⟨k₀, v₀⟩ := p
      by_cases h0 : k₀ = k
      · subst h0
        have hne : ¬ k₀ = k' := fun hh => h hh.symm
        simp [jdel, jget, hne]
      · by_cases h1 : k₀ = k'
        · simp [jdel, jget, h0, h1, h]
        · simp [jdel, jget, h0, h1, ih]

theorem jget_jdel_eq_none (m : JMap β) (k : String)
    (h : (m.map Prod.fst).Nodup) : jget (jdel m k) k = none := by
  induction m with
  | nil => simp [jdel, jget]
  | cons p rest ih =>
      obtain ⟨k₀, v₀⟩ := p
      simp only [List.map_cons, List.nodup_cons] at h
      by_cases h0 : k₀ = k
      · subst h0
        simp only [jdel, if_pos rfl]
        exact jget_eq_none_of_not_mem_keys rest k₀ h.1
      · simp [jdel, jget, h0, ih h.2]

theorem jset_self_of_jget (m : JMap β) (k : String) (v : β)
    (h : jget m k = some v) : jset m k v = m := by
  induction m with
  | nil => simp [jget] at h
  | cons p rest ih =>
      obtain ⟨k₀, v₀⟩ := p
      by_cases h0 : k₀ = k
      · simp only [jget, if_pos h0, Option.some.injEq] at h
        simp [jset, h0, h]
      · simp only [jget, if_neg h0] at h
        simp [jset, h0, ih h]

theorem mem_sadd (s : List String) (x y : String) :
    y ∈ sadd s x ↔ y ∈ s ∨ y = x := by
  unfold sadd
  by_cases h : x ∈ s
  · simp only [if_pos h]
    constructor
    · exact fun hy => Or.inl hy
    · rintro (hy | rfl) <;> [exact hy; exact h]
  · simp [if_neg h]

theorem nodup_sadd (s : List String) (x : String) (h : s.Nodup) :
    (sadd s x).Nodup := by
  unfold sadd
  by_cases hx : x ∈ s
  · simpa [if_pos hx]
  · simp [if_neg hx, List.nodup_append, h, hx]

end MapLemmas

section TrimLemmas

theorem dropLeadingWs_head_not_ws (cs : List Char) :
    ∀ c, (dropLeadingWs cs).head? = some c → c.isWhitespace = false := by
  induction cs with
  | nil => intro c h; simp [dropLeadingWs] at h
  | cons c₀ rest ih =>
      intro c h
      by_cases hw : c₀.isWhitespace
      · exact ih c (by simpa [dropLeadingWs, hw] using h)
      · simp only [dropLeadingWs, if_neg hw, List.head?_cons, Option.some.injEq] at h
        subst h
        simpa using hw

theorem dropLeadingWs_of_head_not_ws (cs : List Char)
    (h : ∀ c, cs.head? = some c → c.isWhitespace = false) : dropLeadingWs cs = cs := by
  cases cs with
  | nil => simp [dropLeadingWs]
  | cons c₀ rest =>
      have := h c₀ (by simp)
      simp [dropLeadingWs, this]

theorem dropLeadingWs_suffix (cs : List Char) :
    List.IsSuffix (dropLeadingWs cs) cs := by
  induction cs with
  | nil => simp [dropLeadingWs]
  | cons c₀ rest ih =>
      by_cases hw : c₀.isWhitespace
      · simpa [dropLeadingWs, hw] using ih.trans (List.suffix_cons c₀ rest)
      · simp [dropLeadingWs, hw]

theorem jsTrim_idem (s : String) : jsTrim (jsTrim s) = jsTrim s := by
  unfold jsTrim
  simp only [String.data]
  set a := dropLeadingWs s.data with ha
  set b := dropLeadingWs a.reverse with hb
  have hheadA : ∀ c, a.head? = some c → c.isWhitespace = false :=
    dropLeadingWs_head_not_ws s.data
  have hheadB : ∀ c, b.head? = some c → c.isWhitespace = false :=
    dropLeadingWs_head_not_ws a.reverse
  have hstep1 : dropLeadingWs b.reverse = b.reverse := by
    apply dropLeadingWs_of_head_not_ws
    intro c hc
    rw [List.head?_reverse] at hc
    obtain ⟨t, ht⟩ := dropLeadingWs_suffix a.reverse
    have hbne : b ≠ [] := by
      intro hnil
      rw [hnil] at hc
      simp at hc
    have : (t ++ b).getLast? = b.getLast? := List.getLast?_append_of_ne_nil t hbne
    rw [hb] at hc
    rw [← hb] at hc
    have hlast : a.reverse.getLast? = b.getLast? := by rw [← ht]; exact this
    have hrev : a.reverse.getLast? = a.head? := by simp
    have : a.head? = some c := by rw [← hrev, hlast]; exact hc
    exact hheadA c this
  rw [hstep1, List.reverse_reverse]
  have hstep2 : dropLeadingWs b = b :=
    dropLeadingWs_of_head_not_ws b hheadB
  rw [hstep2]

theorem normalizeId_idem (u : String) : normalizeId (normalizeId u) = normalizeId u :=
  jsTrim_idem u

end TrimLemmas

section OpLemmas

theorem approveUser_rooms (st : ServerState) (r u : String) :
    (approveUser st r u).rooms = st.rooms := by
  unfold approveUser
  dsimp only
  cases h1 : jget st.pendingJoinRequests r <;> dsimp only <;>
    cases h2 : jget st.deniedUsers r <;> rfl

theorem approveUser_roomMetadata (st : ServerState) (r u : String) :
    (approveUser st r u).roomMetadata = st.roomMetadata := by
  unfold approveUser
  dsimp only
  cases h1 : jget st.pendingJoinRequests r <;> dsimp only <;>
    cases h2 : jget st.deniedUsers r <;> rfl

theorem approveUser_socketUserMap (st : ServerState) (r u : String) :
    (approveUser st r u).socketUserMap = st.socketUserMap := by
  unfold approveUser
  dsimp only
  cases h1 : jget st.pendingJoinRequests r <;> dsimp only <;>
    cases h2 : jget st.deniedUsers r <;> rfl

theorem approveUser_socketioRooms (st : ServerState) (r u : String) :
    (approveUser st r u).socketioRooms = st.socketioRooms := by
  unfold approveUser
  dsimp only
  cases h1 : jget st.pendingJoinRequests r <;> dsimp only <;>
    cases h2 : jget st.deniedUsers r <;> rfl

theorem approveUser_approvedUsers (st : ServerState) (r u : String) :
    (approveUser st r u).approvedUsers =
      jset st.approvedUsers r
        (sadd ((jget st.approvedUsers r).getD []) (normalizeId u)) := by
  unfold approveUser
  dsimp only
  cases h1 : jget st.pendingJoinRequests r <;> dsimp only <;>
    cases h2 : jget st.deniedUsers r <;> rfl

theorem approveUser_pendingJoinRequests (st : ServerState) (r u : String) :
    (approveUser st r u).pendingJoinRequests =
      (match jget st.pendingJoinRequests r with
       | none => st.pendingJoinRequests
       | some reqs => jset st.pendingJoinRequests r (delFirstNorm reqs (normalizeId u))) := by
  unfold approveUser
  dsimp only
  cases h1 : jget st.pendingJoinRequests r <;> dsimp only <;>
    cases h2 : jget st.deniedUsers r <;> rfl

theorem approveUser_deniedUsers (st : ServerState) (r u : String) :
    (approveUser st r u).deniedUsers =
      (match jget st.deniedUsers r with
       | none => st.deniedUsers
       | some den => jset st.deniedUsers r (delFirstNorm den (normalizeId u))) := by
  unfold approveUser
  dsimp only
  cases h1 : jget st.pendingJoinRequests r <;> dsimp only <;>
    cases h2 : jget st.deniedUsers r <;> rfl

theorem isApproved_approveUser_self (st : ServerState) (r u : String) :
    isApproved (approveUser st r u) r u = true := by
  unfold isApproved
  rw [approveUser_approvedUsers, jget_jset_self]
  apply List.any_eq_true.mpr
  refine ⟨normalizeId u, (mem_sadd _ _ _).mpr (Or.inr rfl), ?_⟩
  simp [normalizeId_idem]

theorem denyUser_rooms (st : ServerState) (r u reason : String) (now : Int) :
    (denyUser st r u reason now).rooms = st.rooms := by
  unfold denyUser
  dsimp only
  cases h1 : jget st.pendingJoinRequests r <;> rfl

theorem denyUser_roomMetadata (st : ServerState) (r u reason : String) (now : Int) :
    (denyUser st r u reason now).roomMetadata = st.roomMetadata := by
  unfold denyUser
  dsimp only
  cases h1 : jget st.pendingJoinRequests r <;> rfl

theorem denyUser_approvedUsers (st : ServerState) (r u reason : String) (now : Int) :
    (denyUser st r u reason now).approvedUsers = st.approvedUsers := by
  unfold denyUser
  dsimp only
  cases h1 : jget st.pendingJoinRequests r <;> rfl

theorem denyUser_socketUserMap (st : ServerState) (r u reason : String) (now : Int) :
    (denyUser st r u reason now).socketUserMap = st.socketUserMap := by
  unfold denyUser
  dsimp only
  cases h1 : jget st.pendingJoinRequests r <;> rfl

theorem denyUser_socketioRooms (st : ServerState) (r u reason : String) (now : Int) :
    (denyUser st r u reason now).socketioRooms = st.socketioRooms := by
  unfold denyUser
  dsimp only
  cases h1 : jget st.pendingJoinRequests r <;> rfl

theorem denyUser_deniedUsers (st : ServerState) (r u reason : String) (now : Int) :
    (denyUser st r u reason now).deniedUsers =
      jset st.deniedUsers r
        (jset ((jget st.deniedUsers r).getD []) u ⟨now, reason⟩) := by
  unfold denyUser
  dsimp only
  cases h1 : jget st.pendingJoinRequests r <;> rfl

theorem denyUser_pendingJoinRequests (st : ServerState) (r u reason : String) (now : Int) :
    (denyUser st r u reason now).pendingJoinRequests =
      (match jget st.pendingJoinRequests r with
       | none => st.pendingJoinRequests
       | some reqs => jset st.pendingJoinRequests r (jdel reqs u)) := by
  unfold denyUser
  dsimp only
  cases h1 : jget st.pendingJoinRequests r <;> rfl

end OpLemmas

/-- C2 counterexample: in the empty state no connection is a participant of
any room, yet an `offer` event is relayed to the target anyway, with no
error emitted and no state change — the claimed membership and payload-size
preconditions are never checked. -/
theorem C2_counterexample :
    emptyState.rooms = [] ∧
    relayOffer emptyState "sdp-payload" "B" "A" "Alice" "u1" none =
      (emptyState,
       [⟨Dest.socket "B", Msg.offerMsg "sdp-payload" "A" "Alice" "u1" none⟩]) ∧
    emitsError (relayOffer emptyState "sdp-payload" "B" "A" "Alice" "u1" none).2 = false :=
  ⟨rfl, rfl, rfl⟩

/-- C2 (amended): for every `offer`, `answer` or `ice-candidate` event the
hub relays the message to the target connection unconditionally — it checks
neither sender membership, nor target membership, nor any payload size bound,
emits no error, and changes no state. -/
theorem C2_amended (st : ServerState)
    (payload target sender userName oduserId candidate : String)
    (ms : Option MediaState) :
    relayOffer st payload target sender userName oduserId ms =
      (st, [⟨Dest.socket target, Msg.offerMsg payload sender userName oduserId ms⟩]) ∧
    relayAnswer st payload target sender oduserId =
      (st, [⟨Dest.socket target, Msg.answerMsg payload sender oduserId⟩]) ∧
    relayIceCandidate st candidate target sender =
      (st, [⟨Dest.socket target, Msg.iceCandidateMsg candidate sender⟩]) :=
  ⟨rfl, rfl, rfl⟩

/-- C3 counterexample: after the host creates and joins room R, a
`transcription-entry` from the host results in a `transcription-update`
broadcast that the sender receives as well, contradicting the claim that the
sending participant does not receive it. -/
theorem C3_counterexample :
    (let st1 := (joinRoom (requestJoinRoom emptyState "H" "R" "h" "Host" false 0).1
        "H" "R" "h" "Host" none 0).1
     let res := transcriptionEntry st1 "H" "R" "h" "Host" "hello" 5 1 95
     res.2 = [⟨Dest.roomAll "R",
       Msg.transcriptionUpdate "h" "Host" "hello" 5 1 95 "H"⟩] ∧
     res.2.all (fun e => receives st1 "H" e) = true) := by
  decide

/-- C3 (amended): a `transcription-entry` for a room is broadcast as one
`transcription-update` addressed to the whole room with `io.to(roomId)`, so
every socket joined to the room receives it — including the sender. -/
theorem C3_amended (st : ServerState) (socketId roomId userId userName text : String)
    (timestamp secondsIntoMeeting confidence : Int) :
    (transcriptionEntry st socketId roomId userId userName text timestamp
        secondsIntoMeeting confidence).1 = st ∧
    (transcriptionEntry st socketId roomId userId userName text timestamp
        secondsIntoMeeting confidence).2 =
      [⟨Dest.roomAll roomId,
        Msg.transcriptionUpdate userId userName text timestamp secondsIntoMeeting
          confidence socketId⟩] ∧
    (∀ sid, receives st sid
        ⟨Dest.roomAll roomId,
         Msg.transcriptionUpdate userId userName text timestamp secondsIntoMeeting
           confidence socketId⟩ =
      ((jget st.socketioRooms roomId).getD []).contains sid) :=
  ⟨rfl, rfl, fun _ => rfl⟩

/-- C9 counterexample: `set-meeting-start-time` guards with a JavaScript
falsy check, so a first write of 0 does store 0, yet a second write then
overwrites it — the write is not idempotent as claimed. -/
theorem C9_counterexample :
    (let st0 := (requestJoinRoom emptyState "H" "R" "h" "Host" false 0).1
     let st1 := (setMeetingStartTime st0 "R" 0).1
     let st2 := (setMeetingStartTime st1 "R" 7).1
     ((jget st1.roomMetadata "R").map RoomMeta.meetingStartTime = some (some 0)) ∧
     ((jget st2.roomMetadata "R").map RoomMeta.meetingStartTime = some (some 7)) ∧
     (requestMeetingStartTime st1 "G" "R").2 = []) := by
  decide

/-- C9 (amended): for a room whose meeting_start_time is unset, the first
`set-meeting-start-time` carrying a nonzero start_time stores it, every
subsequent write leaves it unchanged, and `request-meeting-start-time`
replies with exactly that stored value.  (A first write of 0 is not sticky:
it is stored but, being falsy, does not block later writes and is never
reported by the getter.) -/
theorem C9_amended (st : ServerState) (sid r : String) (t : Int) (m : RoomMeta)
    (hm : jget st.roomMetadata r = some m) (hnone : m.meetingStartTime = none)
    (ht : t ≠ 0) :
    jget (setMeetingStartTime st r t).1.roomMetadata r =
      some { m with meetingStartTime := some t } ∧
    (∀ t', setMeetingStartTime (setMeetingStartTime st r t).1 r t' =
      ((setMeetingStartTime st r t).1, [])) ∧
    requestMeetingStartTime (setMeetingStartTime st r t).1 sid r =
      ((setMeetingStartTime st r t).1, [⟨Dest.socket sid, Msg.meetingStartTimeMsg t⟩]) := by
  have hstep : setMeetingStartTime st r t =
      ({ st with roomMetadata :=
          (jset st.roomMetadata r { m with meetingStartTime := some t }) }, []) := by
    simp [setMeetingStartTime, hm, hnone]
  refine ⟨?_, ?_, ?_⟩
  · rw [hstep]
    simp [jget_jset_self]
  · intro t'
    rw [hstep]
    simp [setMeetingStartTime, jget_jset_self, ht]
  · rw [hstep]
    simp [requestMeetingStartTime, jget_jset_self, ht]

/-- C9 witness: the amended theorem applied to the room the host just
created, with start_time 42. -/
theorem C9_witness :
    (let st0 := (requestJoinRoom emptyState "H" "R" "h" "Host" false 0).1
     jget st0.roomMetadata "R" = some ⟨"h", "H", 0, true, none⟩ ∧
     (⟨"h", "H", 0, true, none⟩ : RoomMeta).meetingStartTime = none ∧
     (42 : Int) ≠ 0 ∧
     (jget (setMeetingStartTime st0 "R" 42).1.roomMetadata "R" =
        some ⟨"h", "H", 0, true, some 42⟩ ∧
      (∀ t', setMeetingStartTime (setMeetingStartTime st0 "R" 42).1 "R" t' =
        ((setMeetingStartTime st0 "R" 42).1, [])) ∧
      requestMeetingStartTime (setMeetingStartTime st0 "R" 42).1 "G" "R" =
        ((setMeetingStartTime st0 "R" 42).1,
         [⟨Dest.socket "G", Msg.meetingStartTimeMsg 42⟩]))) := by
  refine ⟨by decide, rfl, by decide, ?_⟩
  exact C9_amended _ "G" "R" 42 ⟨"h", "H", 0, true, none⟩ (by decide) rfl (by decide)

/-- C7 counterexample: the sweeper removes a pending request only when its
age strictly exceeds REQUEST_TIMEOUT, so a request exactly 5 minutes old is
kept and no expiry notice is emitted on that tick — contradicting the claim
that it is removed and notified at exactly 5 minutes. -/
theorem C7_counterexample :
    (let st0 := (requestJoinRoom emptyState "H" "R" "h" "Host" false 0).1
     let st1 := (requestJoinRoom st0 "G" "R" "g" "Guest" false 0).1
     let res := cleanupExpiredRequests st1 "R" REQUEST_TIMEOUT
     jget ((jget res.1.pendingJoinRequests "R").getD []) "g" =
       some ⟨"g", "Guest", some "G", 0, "pending"⟩ ∧
     res.2 = []) := by
  decide

/-- C7 (amended): a sweeper pass over a room keeps exactly the pending
requests whose age is at most 5 minutes (a request exactly 5 minutes old or
younger remains pending) and removes those strictly older than 5 minutes,
emitting `join-request-expired` to each removed request whose socket is
still recorded. -/
theorem C7_amended (st : ServerState) (r : String) (now : Int)
    (reqs : JMap PendingRequest)
    (h : jget st.pendingJoinRequests r = some reqs) :
    jget (cleanupExpiredRequests st r now).1.pendingJoinRequests r =
      some (reqs.filter (fun p => ¬ (now - p.2.requestedAt > REQUEST_TIMEOUT))) ∧
    (∀ k req, (k, req) ∈ reqs → now - req.requestedAt ≤ REQUEST_TIMEOUT →
      (k, req) ∈ reqs.filter (fun p => ¬ (now - p.2.requestedAt > REQUEST_TIMEOUT))) ∧
    (∀ k req, (k, req) ∈ reqs → now - req.requestedAt > REQUEST_TIMEOUT →
      (k, req) ∉ reqs.filter (fun p => ¬ (now - p.2.requestedAt > REQUEST_TIMEOUT)) ∧
      (∀ sid, req.socketId = some sid →
        (⟨Dest.socket sid,
          Msg.joinRequestExpired "Your join request has expired. Please try again."⟩ :
            Emit) ∈ (cleanupExpiredRequests st r now).2)) := by
  have hstate : (cleanupExpiredRequests st r now).1.pendingJoinRequests =
      jset st.pendingJoinRequests r
        (reqs.filter (fun p => ¬ (now - p.2.requestedAt > REQUEST_TIMEOUT))) := by
    simp [cleanupExpiredRequests, h]
  have hemits : (cleanupExpiredRequests st r now).2 =
      (reqs.filter (fun p => now - p.2.requestedAt > REQUEST_TIMEOUT)).filterMap
        (fun p => p.2.socketId.map (fun sid =>
          Emit.mk (Dest.socket sid)
            (Msg.joinRequestExpired "Your join request has expired. Please try again."))) := by
    simp [cleanupExpiredRequests, h]
  refine ⟨?_, ?_, ?_⟩
  · rw [hstate, jget_jset_self]
  · intro k req hmem hage
    rw [List.mem_filter]
    refine ⟨hmem, ?_⟩
    simpa using not_lt.mpr hage
  · intro k req hmem hage
    constructor
    · rw [List.mem_filter]
      rintro ⟨-, hp⟩
      simp at hp
      omega
    · intro sid hsid
      rw [hemits, List.mem_filterMap]
      refine ⟨(k, req), ?_, ?_⟩
      · rw [List.mem_filter]
        exact ⟨hmem, by simpa using hage⟩
      · simp [hsid]

/-- C7 witness: applying the amended theorem to a two-request room swept at
time 300001 — the request aged 300001 ms is removed and notified, the one
aged exactly 300000 ms is kept. -/
theorem C7_witness :
    (let reqA : PendingRequest := ⟨"a", "A", some "SA", 0, "pending"⟩
     let reqB : PendingRequest := ⟨"b", "B", some "SB", 1, "pending"⟩
     let stW : ServerState := ⟨[], [], [], [("R", [("a", reqA), ("b", reqB)])], [], [], []⟩
     jget stW.pendingJoinRequests "R" = some [("a", reqA), ("b", reqB)] ∧
     ("a", reqA) ∈ [("a", reqA), ("b", reqB)] ∧
     (300001 : Int) - reqA.requestedAt > REQUEST_TIMEOUT ∧
     ("b", reqB) ∈ [("a", reqA), ("b", reqB)] ∧
     (300001 : Int) - reqB.requestedAt ≤ REQUEST_TIMEOUT ∧
     ("b", reqB) ∈ ([("a", reqA), ("b", reqB)] : JMap PendingRequest).filter
       (fun p => ¬ ((300001 : Int) - p.2.requestedAt > REQUEST_TIMEOUT)) ∧
     ("a", reqA) ∉ ([("a", reqA), ("b", reqB)] : JMap PendingRequest).filter
       (fun p => ¬ ((300001 : Int) - p.2.requestedAt > REQUEST_TIMEOUT)) ∧
     (⟨Dest.socket "SA",
        Msg.joinRequestExpired "Your join request has expired. Please try again."⟩ :
          Emit) ∈ (cleanupExpiredRequests
            (⟨[], [], [], [("R", [("a", reqA), ("b", reqB)])], [], [], []⟩ : ServerState)
            "R" 300001).2) := by
  intro reqA reqB stW
  have hmain := C7_amended stW "R" 300001 [("a", reqA), ("b", reqB)] rfl
  refine ⟨rfl, by decide, by decide, by decide, by decide, ?_, ?_, ?_⟩
  · exact hmain.2.1 "b" reqB (by decide) (by decide)
  · exact (hmain.2.2 "a" reqA (by decide) (by decide)).1
  · exact (hmain.2.2 "a" reqA (by decide) (by decide)).2 "SA" rfl

/-- C8: a `request-join-room` for a room with no metadata (and whose sender
is not carried in a stale denied record for that room id) creates the room
with the requester as host — `host_user_id` and `host_conn_id` are the
requester's, the requester is approved, and the reply is `join-approved`
with `is_host: true`. -/
theorem C8 (st : ServerState) (sid r u n : String) (rej : Bool) (now : Int)
    (hmeta : jget st.roomMetadata r = none)
    (hden : isDenied st r u = false) :
    jget (requestJoinRoom st sid r u n rej now).1.roomMetadata r =
      some ⟨u, sid, now, true, none⟩ ∧
    isApproved (requestJoinRoom st sid r u n rej now).1 r u = true ∧
    (requestJoinRoom st sid r u n rej now).2 =
      [⟨Dest.socket sid, Msg.joinApproved r true none "You are the host of this meeting."⟩] := by
  have hden' : isDenied
      { st with socketUserMap := (jset st.socketUserMap sid ⟨u, some n, r⟩) } r u = false := hden
  have hmeta' : jget
      ({ st with socketUserMap :=
          (jset st.socketUserMap sid ⟨u, some n, r⟩) } : ServerState).roomMetadata r = none := hmeta
  have hstep : requestJoinRoom st sid r u n rej now =
      (approveUser
        { st with
            socketUserMap := (jset st.socketUserMap sid ⟨u, some n, r⟩),
            roomMetadata := (jset st.roomMetadata r ⟨u, sid, now, true, none⟩) } r u,
       [⟨Dest.socket sid, Msg.joinApproved r true none "You are the host of this meeting."⟩]) := by
    unfold requestJoinRoom
    simp only [hden', hmeta']
    simp
  rw [hstep]
  refine ⟨?_, ?_, rfl⟩
  · rw [approveUser_roomMetadata]
    dsimp only
    rw [jget_jset_self]
  · exact isApproved_approveUser_self _ _ _

/-- C8 witness: the theorem applied to the empty state. -/
theorem C8_witness :
    jget emptyState.roomMetadata "R" = none ∧
    isDenied emptyState "R" "h" = false ∧
    (jget (requestJoinRoom emptyState "H" "R" "h" "Host" false 0).1.roomMetadata "R" =
       some ⟨"h", "H", 0, true, none⟩ ∧
     isApproved (requestJoinRoom emptyState "H" "R" "h" "Host" false 0).1 "R" "h" = true ∧
     (requestJoinRoom emptyState "H" "R" "h" "Host" false 0).2 =
       [⟨Dest.socket "H",
         Msg.joinApproved "R" true none "You are the host of this meeting."⟩]) :=
  ⟨rfl, rfl, C8 emptyState "H" "R" "h" "Host" false 0 rfl rfl⟩

/-- C10: `toggle-media` always broadcasts `user-media-toggle` to the other
sockets of the room; when the sender is not a stored participant the state
is entirely unchanged, and when the sender is a participant only that
participant's media field of the given type changes — every other
participant, every other room, and every other state component is
untouched. -/
theorem C10 (st : ServerState) (sid roomId typ : String) (enabled : Bool) :
    (toggleMedia st sid roomId typ enabled).2 =
      [⟨Dest.roomOthers roomId sid, Msg.userMediaToggle sid typ enabled⟩] ∧
    ((jget st.rooms roomId).bind (fun room => jget room sid) = none →
      (toggleMedia st sid roomId typ enabled).1 = st) ∧
    (∀ room u, jget st.rooms roomId = some room → jget room sid = some u →
      (toggleMedia st sid roomId typ enabled).1.roomMetadata = st.roomMetadata ∧
      (toggleMedia st sid roomId typ enabled).1.approvedUsers = st.approvedUsers ∧
      (toggleMedia st sid roomId typ enabled).1.pendingJoinRequests =
        st.pendingJoinRequests ∧
      (toggleMedia st sid roomId typ enabled).1.deniedUsers = st.deniedUsers ∧
      (toggleMedia st sid roomId typ enabled).1.socketUserMap = st.socketUserMap ∧
      (toggleMedia st sid roomId typ enabled).1.socketioRooms = st.socketioRooms ∧
      (∀ r', r' ≠ roomId →
        jget (toggleMedia st sid roomId typ enabled).1.rooms r' = jget st.rooms r') ∧
      (∀ k, k ≠ sid →
        jget ((jget (toggleMedia st sid roomId typ enabled).1.rooms roomId).getD []) k =
          jget room k) ∧
      (typ = "audio" →
        jget ((jget (toggleMedia st sid roomId typ enabled).1.rooms roomId).getD []) sid =
          some { u with mediaState := ⟨enabled, u.mediaState.video⟩ }) ∧
      (typ = "video" →
        jget ((jget (toggleMedia st sid roomId typ enabled).1.rooms roomId).getD []) sid =
          some { u with mediaState := ⟨u.mediaState.audio, enabled⟩ })) := by
  refine ⟨rfl, ?_, ?_⟩
  · intro hnone
    unfold toggleMedia
    dsimp only
    cases hroom : jget st.rooms roomId with
    | none => rfl
    | some room =>
        rw [hroom] at hnone
        simp only [Option.some_bind] at hnone
        dsimp only
        rw [hnone]
  · intro room u hroom hu
    have hstep : (toggleMedia st sid roomId typ enabled).1 =
        { st with rooms := (jset st.rooms roomId (jset room sid
            (if typ = "audio" then
              { u with mediaState := { u.mediaState with audio := enabled } }
             else if typ = "video" then
              { u with mediaState := { u.mediaState with video := enabled } }
             else u))) } := by
      unfold toggleMedia
      dsimp only
      rw [hroom]
      dsimp only
      rw [hu]
    rw [hstep]
    refine ⟨rfl, rfl, rfl, rfl, rfl, rfl, ?_, ?_, ?_, ?_⟩
    · intro r' hr'
      exact jget_jset_ne _ _ _ _ hr'
    · intro k hk
      dsimp only
      rw [jget_jset_self, Option.getD_some]
      exact jget_jset_ne _ _ _ _ hk
    · intro htyp
      dsimp only
      rw [jget_jset_self, Option.getD_some, jget_jset_self]
      simp [htyp]
    · intro htyp
      dsimp only
      rw [jget_jset_self, Option.getD_some, jget_jset_self]
      by_cases ha : typ = "audio"
      · rw [ha] at htyp
        exact absurd htyp (by decide)
      · simp [htyp, ha]

/-- C10 witness: a non-participant toggle leaves the state untouched, and a
participant toggle flips only that participant's audio flag. -/
theorem C10_witness :
    (let pA : Participant := ⟨"a", "Alice", "A", false, ⟨true, true⟩, 0⟩
     let pB : Participant := ⟨"b", "Bob", "B", false, ⟨true, true⟩, 0⟩
     let room : JMap Participant := [("A", pA), ("B", pB)]
     let stB : ServerState := ⟨[("R", room)], [], [], [], [], [], []⟩
     jget stB.rooms "R" = some room ∧
     jget room "A" = some pA ∧
     (jget emptyState.rooms "R").bind (fun rm => jget rm "X") = none ∧
     (toggleMedia emptyState "X" "R" "audio" false).1 = emptyState ∧
     (toggleMedia stB "A" "R" "audio" false).2 =
       [⟨Dest.roomOthers "R" "A", Msg.userMediaToggle "A" "audio" false⟩] ∧
     jget ((jget (toggleMedia stB "A" "R" "audio" false).1.rooms "R").getD []) "A" =
       some ⟨"a", "Alice", "A", false, ⟨false, true⟩, 0⟩ ∧
     jget ((jget (toggleMedia stB "A" "R" "audio" false).1.rooms "R").getD []) "B" =
       some pB) := by
  intro pA pB room stB
  have h1 := C10 emptyState "X" "R" "audio" false
  have h2 := C10 stB "A" "R" "audio" false
  obtain ⟨-, -, -, -, -, -, -, hK, hA, -⟩ := h2.2.2 room pA rfl rfl
  refine ⟨rfl, rfl, rfl, h1.2.1 rfl, h2.1, hA rfl, ?_⟩
  rw [hK "B" (by decide)]
  rfl

section SocketLeaveLemmas

theorem socketLeave_rooms (st : ServerState) (sid r : String) :
    (socketLeave st sid r).rooms = st.rooms := by
  unfold socketLeave
  cases jget st.socketioRooms r <;> rfl

theorem socketLeave_roomMetadata (st : ServerState) (sid r : String) :
    (socketLeave st sid r).roomMetadata = st.roomMetadata := by
  unfold socketLeave
  cases jget st.socketioRooms r <;> rfl

theorem socketLeave_approvedUsers (st : ServerState) (sid r : String) :
    (socketLeave st sid r).approvedUsers = st.approvedUsers := by
  unfold socketLeave
  cases jget st.socketioRooms r <;> rfl

theorem socketLeave_pendingJoinRequests (st : ServerState) (sid r : String) :
    (socketLeave st sid r).pendingJoinRequests = st.pendingJoinRequests := by
  unfold socketLeave
  cases jget st.socketioRooms r <;> rfl

theorem socketLeave_deniedUsers (st : ServerState) (sid r : String) :
    (socketLeave st sid r).deniedUsers = st.deniedUsers := by
  unfold socketLeave
  cases jget st.socketioRooms r <;> rfl

end SocketLeaveLemmas

/-- C4 counterexample: the host creates room R and joins it, a guest request
is pending, and then the last participant leaves — the room is destroyed,
pending queue included, even though pending_requests was non-empty.  The
claim said the room continues to exist in that situation. -/
theorem C4_counterexample :
    (let st1 := (requestJoinRoom emptyState "H" "R" "h" "Host" false 0).1
     let st2 := (joinRoom st1 "H" "R" "h" "Host" none 0).1
     let st3 := (requestJoinRoom st2 "G" "R" "g" "Guest" false 1).1
     ((jget st3.rooms "R").map List.length = some 1) ∧
     ((jget st3.pendingJoinRequests "R").map List.length = some 1) ∧
     (let st4 := (leaveRoom st3 "H" "R" "h").1
      jget st4.roomMetadata "R" = none ∧
      jget st4.pendingJoinRequests "R" = none ∧
      jget st4.rooms "R" = none ∧
      jget st4.approvedUsers "R" = none ∧
      jget st4.deniedUsers "R" = none)) := by
  decide

/-- C4 (amended): a room is destroyed exactly when its participants map
empties — regardless of pending requests, which are destroyed with it — or
when the host ends the meeting; while participants remain non-empty after a
leave, the room and its admission records survive. -/
theorem C4_amended (st : ServerState) (sid r u : String) (hwf : WFState st) :
    (∀ room, jget st.rooms r = some room → jdel room sid = [] →
      jget (leaveRoom st sid r u).1.rooms r = none ∧
      jget (leaveRoom st sid r u).1.roomMetadata r = none ∧
      jget (leaveRoom st sid r u).1.approvedUsers r = none ∧
      jget (leaveRoom st sid r u).1.pendingJoinRequests r = none ∧
      jget (leaveRoom st sid r u).1.deniedUsers r = none) ∧
    (∀ room, jget st.rooms r = some room → jdel room sid ≠ [] →
      (leaveRoom st sid r u).1.roomMetadata = st.roomMetadata ∧
      (leaveRoom st sid r u).1.approvedUsers = st.approvedUsers ∧
      (leaveRoom st sid r u).1.pendingJoinRequests = st.pendingJoinRequests ∧
      (leaveRoom st sid r u).1.deniedUsers = st.deniedUsers ∧
      jget (leaveRoom st sid r u).1.rooms r = some (jdel room sid)) ∧
    (∀ m pu, jget st.roomMetadata r = some m →
      (jget st.rooms r).bind (fun room => jget room sid) = some pu →
      pu.oduserId = m.hostUserId →
      jget (endMeeting st sid r).1.rooms r = none ∧
      jget (endMeeting st sid r).1.roomMetadata r = none ∧
      jget (endMeeting st sid r).1.approvedUsers r = none ∧
      jget (endMeeting st sid r).1.pendingJoinRequests r = none ∧
      jget (endMeeting st sid r).1.deniedUsers r = none) := by
  obtain ⟨hw1, hw2, hw3, hw4, hw5⟩ := hwf
  refine ⟨?_, ?_, ?_⟩
  · intro room hroom hempty
    have hstep : (leaveRoom st sid r u).1 =
        socketLeave (cleanupRoom
          { st with rooms := (jset st.rooms r (jdel room sid)) } r) sid r := by
      unfold leaveRoom handleUserLeave
      dsimp only
      rw [hroom]
      dsimp only
      rw [hempty]
      simp
    rw [hstep]
    refine ⟨?_, ?_, ?_, ?_, ?_⟩
    · rw [socketLeave_rooms]
      unfold cleanupRoom
      dsimp only
      exact jget_jdel_eq_none _ _ (nodup_keys_jset _ _ _ hw1)
    · rw [socketLeave_roomMetadata]
      unfold cleanupRoom
      dsimp only
      exact jget_jdel_eq_none _ _ hw2
    · rw [socketLeave_approvedUsers]
      unfold cleanupRoom
      dsimp only
      exact jget_jdel_eq_none _ _ hw3
    · rw [socketLeave_pendingJoinRequests]
      unfold cleanupRoom
      dsimp only
      exact jget_jdel_eq_none _ _ hw4
    · rw [socketLeave_deniedUsers]
      unfold cleanupRoom
      dsimp only
      exact jget_jdel_eq_none _ _ hw5
  · intro room hroom hne
    have hlen : ¬ ((jdel room sid).length = 0) := by
      simpa [List.length_eq_zero] using hne
    have hstep : (leaveRoom st sid r u).1 =
        socketLeave { st with rooms := (jset st.rooms r (jdel room sid)) } sid r := by
      unfold leaveRoom handleUserLeave
      dsimp only
      rw [hroom]
      dsimp only
      rw [if_neg hlen]
      simp [apply_ite Prod.fst]
    rw [hstep]
    refine ⟨?_, ?_, ?_, ?_, ?_⟩
    · rw [socketLeave_roomMetadata]
    · rw [socketLeave_approvedUsers]
    · rw [socketLeave_pendingJoinRequests]
    · rw [socketLeave_deniedUsers]
    · rw [socketLeave_rooms]
      dsimp only
      rw [jget_jset_self]
  · intro m pu hm hpu hhost
    have hstep : (endMeeting st sid r).1 = cleanupRoom st r := by
      unfold endMeeting
      dsimp only
      rw [hm]
      dsimp only
      rw [hpu]
      dsimp only
      rw [if_pos hhost]
    rw [hstep]
    unfold cleanupRoom
    dsimp only
    exact ⟨jget_jdel_eq_none _ _ hw1, jget_jdel_eq_none _ _ hw2,
      jget_jdel_eq_none _ _ hw3, jget_jdel_eq_none _ _ hw4, jget_jdel_eq_none _ _ hw5⟩

/-- C4 witness: the amended theorem applied to the room built by the
counterexample scenario (host joined, one guest pending). -/
theorem C4_witness :
    (let st3 := (requestJoinRoom
        (joinRoom (requestJoinRoom emptyState "H" "R" "h" "Host" false 0).1
          "H" "R" "h" "Host" none 0).1 "G" "R" "g" "Guest" false 1).1
     WFState st3 ∧
     jget st3.rooms "R" = some [("H", ⟨"h", "Host", "H", true, ⟨true, true⟩, 0⟩)] ∧
     jdel [("H", (⟨"h", "Host", "H", true, ⟨true, true⟩, 0⟩ : Participant))] "H" = [] ∧
     (jget (leaveRoom st3 "H" "R" "h").1.rooms "R" = none ∧
      jget (leaveRoom st3 "H" "R" "h").1.roomMetadata "R" = none ∧
      jget (leaveRoom st3 "H" "R" "h").1.approvedUsers "R" = none ∧
      jget (leaveRoom st3 "H" "R" "h").1.pendingJoinRequests "R" = none ∧
      jget (leaveRoom st3 "H" "R" "h").1.deniedUsers "R" = none)) := by
  intro st3
  refine ⟨by unfold WFState; decide, by decide, by decide, ?_⟩
  exact (C4_amended st3 "H" "R" "h" (by unfold WFState; decide)).1
    [("H", ⟨"h", "Host", "H", true, ⟨true, true⟩, 0⟩)] (by decide) (by decide)

/-- C1 counterexample: the hub never compares the acting connection's
registered identity with the claimed approver.  Socket G is registered to
user g (not the host h), yet its `approve-join-request` asserting
`approver_user_id = h` succeeds: no error is emitted, g becomes approved and
leaves the pending queue.  The claim required this to fail with an error and
no state change. -/
theorem C1_counterexample :
    (let st1 := (requestJoinRoom emptyState "H" "R" "h" "Host" false 0).1
     let st2 := (requestJoinRoom st1 "G" "R" "g" "Guest" false 1).1
     jget st2.socketUserMap "G" = some ⟨"g", some "Guest", "R"⟩ ∧
     inPendingSet st2 "R" "g" = true ∧
     (let res := approveJoinRequest st2 "G" "R" "g" "h"
      emitsError res.2 = false ∧
      isApproved res.1 "R" "g" = true ∧
      inPendingSet res.1 "R" "g" = false)) := by
  decide

/-- C1 (amended): host-only admission events are guarded by a single check —
the client-asserted approver_user_id must be truthy and normalize to the
room's host_user_id; the acting connection's own identity is never
consulted.  When that single check fails (with the room present), each of
the three handlers emits exactly one error to the offending connection and
returns the state completely unchanged. -/
theorem C1_amended (st : ServerState) (sid r u a reason : String) (now : Int)
    (m : RoomMeta) (hm : jget st.roomMetadata r = some m)
    (hfail : ¬ (strTruthy a = true ∧ normalizeId a = normalizeId m.hostUserId)) :
    approveJoinRequest st sid r u a =
      (st, [⟨Dest.socket sid, Msg.errorMsg "Only the host can approve join requests."⟩]) ∧
    denyJoinRequest st sid r u reason a now =
      (st, [⟨Dest.socket sid, Msg.errorMsg "Only the host can deny join requests."⟩]) ∧
    admitAllWaiting st sid r a =
      (st, [⟨Dest.socket sid, Msg.errorMsg "Only the host can admit all users."⟩]) := by
  have hb : ¬ ((strTruthy a && (normalizeId a = normalizeId m.hostUserId : Bool)) = true) := by
    simp only [Bool.and_eq_true, decide_eq_true_eq]
    exact fun hp => hfail hp
  refine ⟨?_, ?_, ?_⟩
  · unfold approveJoinRequest
    dsimp only
    rw [hm]
    dsimp only
    rw [if_pos hb]
  · unfold denyJoinRequest
    dsimp only
    rw [hm]
    dsimp only
    rw [if_pos hb]
  · unfold admitAllWaiting
    dsimp only
    rw [hm]
    dsimp only
    rw [if_pos hb]

/-- C1 witness: a connection asserting the id "imposter" (which does not
normalize to the host id "h") is rejected by all three handlers with the
state unchanged. -/
theorem C1_witness :
    (let st1 := (requestJoinRoom emptyState "H" "R" "h" "Host" false 0).1
     jget st1.roomMetadata "R" = some ⟨"h", "H", 0, true, none⟩ ∧
     ¬ (strTruthy "imposter" = true ∧
        normalizeId "imposter" = normalizeId (⟨"h", "H", 0, true, none⟩ : RoomMeta).hostUserId) ∧
     (approveJoinRequest st1 "X" "R" "g" "imposter" =
       (st1, [⟨Dest.socket "X", Msg.errorMsg "Only the host can approve join requests."⟩]) ∧
      denyJoinRequest st1 "X" "R" "g" "" "imposter" 5 =
       (st1, [⟨Dest.socket "X", Msg.errorMsg "Only the host can deny join requests."⟩]) ∧
      admitAllWaiting st1 "X" "R" "imposter" =
       (st1, [⟨Dest.socket "X", Msg.errorMsg "Only the host can admit all users."⟩]))) := by
  intro st1
  refine ⟨by decide, by decide, ?_⟩
  exact C1_amended st1 "X" "R" "g" "imposter" "" 5 ⟨"h", "H", 0, true, none⟩
    (by decide) (by decide)

/-- C6: for a connected host and a guest who is neither host, approved,
denied, nor already pending, two consecutive `request-join-room` events
within the 5-second dedup window produce exactly one `join-request` to the
host; the second request is answered `waiting-for-approval` with
`is_duplicate: true`, emits nothing to the host, and leaves the stored
pending request (and its `requested_at`) untouched. -/
theorem C6 (st : ServerState) (sid1 sid2 r u n1 n2 : String) (t1 t2 : Int) (m : RoomMeta)
    (hm : jget st.roomMetadata r = some m)
    (hhs : strTruthy m.hostSocketId = true)
    (hhost : isHost st r u = false)
    (happ : isApproved st r u = false)
    (hden : isDenied st r u = false)
    (hpend : jget ((jget st.pendingJoinRequests r).getD []) u = none)
    (hwin : t2 - t1 < DEDUP_WINDOW) :
    (∃ pos, (requestJoinRoom st sid1 r u n1 false t1).2 =
      [⟨Dest.socket sid1,
        Msg.waitingForApproval "Waiting for the host to admit you..." false (some pos)⟩,
       ⟨Dest.socket m.hostSocketId, Msg.joinRequest u n1 sid1 t1⟩]) ∧
    countJoinRequests (requestJoinRoom st sid1 r u n1 false t1).2 = 1 ∧
    (requestJoinRoom (requestJoinRoom st sid1 r u n1 false t1).1 sid2 r u n2 false t2).2 =
      [⟨Dest.socket sid2,
        Msg.waitingForApproval
          "Your request is pending. Please wait for the host to admit you." true none⟩] ∧
    countJoinRequests
      (requestJoinRoom (requestJoinRoom st sid1 r u n1 false t1).1 sid2 r u n2 false t2).2 = 0 ∧
    (requestJoinRoom (requestJoinRoom st sid1 r u n1 false t1).1 sid2 r u n2
        false t2).1.pendingJoinRequests =
      (requestJoinRoom st sid1 r u n1 false t1).1.pendingJoinRequests ∧
    jget ((jget (requestJoinRoom st sid1 r u n1 false t1).1.pendingJoinRequests r).getD []) u =
      some ⟨u, n1, some sid1, t1, "pending"⟩ := by
  have hnp : hasPendingRequest st r u t1 = false := by
    unfold hasPendingRequest
    cases hq : jget st.pendingJoinRequests r with
    | none => rfl
    | some reqs =>
        have hru : jget reqs u = none := by
          rw [hq] at hpend
          simpa using hpend
        dsimp only
        rw [hru]
  set st' : ServerState :=
    { st with socketUserMap := (jset st.socketUserMap sid1 ⟨u, some n1, r⟩) } with hst'
  have hden' : isDenied st' r u = false := hden
  have hm' : jget st'.roomMetadata r = some m := hm
  have hhost' : isHost st' r u = false := hhost
  have happ' : isApproved st' r u = false := happ
  have hnp' : hasPendingRequest st' r u t1 = false := hnp
  have hstep1 : requestJoinRoom st sid1 r u n1 false t1 =
      ({ st with
          socketUserMap := (jset st.socketUserMap sid1 ⟨u, some n1, r⟩),
          pendingJoinRequests := (jset st.pendingJoinRequests r
            (jset ((jget st.pendingJoinRequests r).getD []) u
              ⟨u, n1, some sid1, t1, "pending"⟩)) },
       [⟨Dest.socket sid1, Msg.waitingForApproval "Waiting for the host to admit you..."
          false (some (jset ((jget st.pendingJoinRequests r).getD []) u
            ⟨u, n1, some sid1, t1, "pending"⟩).length)⟩,
        ⟨Dest.socket m.hostSocketId, Msg.joinRequest u n1 sid1 t1⟩]) := by
    unfold requestJoinRoom
    dsimp only
    rw [← hst']
    rw [hden', hm', hhost', happ', hnp']
    dsimp only
    rw [show getHostSocketId
      { st' with pendingJoinRequests := (jset st'.pendingJoinRequests r
          (jset ((jget st'.pendingJoinRequests r).getD []) u
            ⟨u, n1, some sid1, t1, "pending"⟩)) } r = some m.hostSocketId from by
        unfold getHostSocketId
        dsimp only
        rw [hm']
        rfl]
    simp [hhs]
  set stA : ServerState :=
    { st with
        socketUserMap := (jset st.socketUserMap sid1 ⟨u, some n1, r⟩),
        pendingJoinRequests := (jset st.pendingJoinRequests r
          (jset ((jget st.pendingJoinRequests r).getD []) u
            ⟨u, n1, some sid1, t1, "pending"⟩)) } with hstA
  set stB : ServerState :=
    { stA with socketUserMap := (jset stA.socketUserMap sid2 ⟨u, some n2, r⟩) } with hstB
  have hdenA : isDenied stB r u = false := hden
  have hmA : jget stB.roomMetadata r = some m := hm
  have hhostA : isHost stB r u = false := hhost
  have happA : isApproved stB r u = false := happ
  have hpA : hasPendingRequest stB r u t2 = true := by
    unfold hasPendingRequest
    dsimp only
    rw [jget_jset_self]
    dsimp only
    rw [jget_jset_self]
    dsimp only
    simpa using hwin
  have hstep2 : requestJoinRoom stA sid2 r u n2 false t2 =
      (stB, [⟨Dest.socket sid2,
        Msg.waitingForApproval
          "Your request is pending. Please wait for the host to admit you." true none⟩]) := by
    unfold requestJoinRoom
    dsimp only
    rw [← hstB]
    rw [hdenA, hmA, hhostA, happA, hpA]
    rfl
  rw [hstep1]
  rw [hstep2]
  refine ⟨⟨_, rfl⟩, rfl, rfl, rfl, rfl, ?_⟩
  rw [jget_jset_self, Option.getD_some, jget_jset_self]

/-- C6 witness: the theorem applied to a fresh room R created by host h, with
a guest g requesting at t=100 and again at t=4000 (3.9 s later). -/
theorem C6_witness :
    (let st1 := (requestJoinRoom emptyState "H" "R" "h" "Host" false 0).1
     jget st1.roomMetadata "R" = some ⟨"h", "H", 0, true, none⟩ ∧
     strTruthy (⟨"h", "H", 0, true, none⟩ : RoomMeta).hostSocketId = true ∧
     isHost st1 "R" "g" = false ∧
     isApproved st1 "R" "g" = false ∧
     isDenied st1 "R" "g" = false ∧
     jget ((jget st1.pendingJoinRequests "R").getD []) "g" = none ∧
     (4000 : Int) - 100 < DEDUP_WINDOW ∧
     ((∃ pos, (requestJoinRoom st1 "G1" "R" "g" "Guest" false 100).2 =
        [⟨Dest.socket "G1",
          Msg.waitingForApproval "Waiting for the host to admit you..." false (some pos)⟩,
         ⟨Dest.socket "H", Msg.joinRequest "g" "Guest" "G1" 100⟩]) ∧
      countJoinRequests (requestJoinRoom st1 "G1" "R" "g" "Guest" false 100).2 = 1 ∧
      (requestJoinRoom (requestJoinRoom st1 "G1" "R" "g" "Guest" false 100).1
          "G2" "R" "g" "Guest" false 4000).2 =
        [⟨Dest.socket "G2",
          Msg.waitingForApproval
            "Your request is pending. Please wait for the host to admit you." true none⟩] ∧
      countJoinRequests (requestJoinRoom (requestJoinRoom st1 "G1" "R" "g" "Guest" false 100).1
          "G2" "R" "g" "Guest" false 4000).2 = 0 ∧
      (requestJoinRoom (requestJoinRoom st1 "G1" "R" "g" "Guest" false 100).1
          "G2" "R" "g" "Guest" false 4000).1.pendingJoinRequests =
        (requestJoinRoom st1 "G1" "R" "g" "Guest" false 100).1.pendingJoinRequests ∧
      jget ((jget (requestJoinRoom st1 "G1" "R" "g" "Guest" false 100).1.pendingJoinRequests
          "R").getD []) "g" = some ⟨"g", "Guest", some "G1", 100, "pending"⟩)) := by
  intro st1
  refine ⟨by decide, rfl, by decide, by decide, by decide, by decide, by decide, ?_⟩
  exact C6 st1 "G1" "G2" "R" "g" "Guest" "Guest" 100 4000 ⟨"h", "H", 0, true, none⟩
    (by decide) rfl (by decide) (by decide) (by decide) (by decide) (by decide)

section AdmInvLemmas

theorem isApproved_iff (st : ServerState) (r u : String) :
    isApproved st r u = true ↔ ∃ x ∈ appList st r, normalizeId x = normalizeId u := by
  unfold isApproved appList
  cases jget st.approvedUsers r with
  | none => simp
  | some l => simp [List.any_eq_true]

theorem isDenied_iff (st : ServerState) (r u : String) :
    isDenied st r u = true ↔ ∃ x ∈ denKeys st r, normalizeId x = normalizeId u := by
  unfold isDenied denKeys
  cases jget st.deniedUsers r with
  | none => simp
  | some l => simp [List.any_eq_true]

theorem inPendingSet_iff (st : ServerState) (r u : String) :
    inPendingSet st r u = true ↔ ∃ x ∈ pendKeys st r, normalizeId x = normalizeId u := by
  unfold inPendingSet pendKeys
  cases jget st.pendingJoinRequests r with
  | none => simp
  | some l => simp [List.any_eq_true]

theorem mem_trim_iff (l : List String) (htrim : ∀ k ∈ l, jsTrim k = k) (u : String) :
    (∃ x ∈ l, normalizeId x = normalizeId u) ↔ jsTrim u ∈ l := by
  constructor
  · rintro ⟨x, hx, hn⟩
    have hxx : jsTrim x = x := htrim x hx
    have hxu : x = jsTrim u := by
      rw [← hxx]
      exact hn
    rwa [← hxu]
  · intro h
    exact ⟨jsTrim u, h, jsTrim_idem u⟩

theorem RoomInvL_approve (A PK DK PK' DK' : List String) (u : String)
    (h : RoomInvL A PK DK)
    (hPKsub : ∀ x ∈ PK', x ∈ PK) (hPKnotin : normalizeId u ∉ PK') (hPKnodup : PK'.Nodup)
    (hDKsub : ∀ x ∈ DK', x ∈ DK) (hDKnotin : normalizeId u ∉ DK') (hDKnodup : DK'.Nodup) :
    RoomInvL (sadd A (normalizeId u)) PK' DK' := by
  obtain ⟨hA1, hA2, hP1, hP2, hD1, hD2, hdisjA, hdisjP⟩ := h
  refine ⟨?_, nodup_sadd _ _ hA2, fun k hk => hP1 k (hPKsub k hk), hPKnodup,
    fun k hk => hD1 k (hDKsub k hk), hDKnodup, ?_, ?_⟩
  · intro k hk
    rcases (mem_sadd A (normalizeId u) k).mp hk with hk | rfl
    · exact hA1 k hk
    · exact jsTrim_idem u
  · intro x hx
    rcases (mem_sadd A (normalizeId u) x).mp hx with hx | rfl
    · exact ⟨fun hc => (hdisjA x hx).1 (hPKsub x hc),
        fun hc => (hdisjA x hx).2 (hDKsub x hc)⟩
    · exact ⟨hPKnotin, hDKnotin⟩
  · intro x hx
    exact fun hc => hdisjP x (hPKsub x hx) (hDKsub x hc)

theorem RoomInvL_deny (A PK DK PK' DK' : List String) (u : String)
    (h : RoomInvL A PK DK)
    (hu : jsTrim u = u) (hnotA : u ∉ A)
    (hPKsub : ∀ x ∈ PK', x ∈ PK) (hPKnotin : u ∉ PK') (hPKnodup : PK'.Nodup)
    (hDKmem : ∀ x ∈ DK', x ∈ DK ∨ x = u) (hDKnodup : DK'.Nodup) :
    RoomInvL A PK' DK' := by
  obtain ⟨hA1, hA2, hP1, hP2, hD1, hD2, hdisjA, hdisjP⟩ := h
  refine ⟨hA1, hA2, fun k hk => hP1 k (hPKsub k hk), hPKnodup, ?_, hDKnodup, ?_, ?_⟩
  · intro k hk
    rcases hDKmem k hk with hk | rfl
    · exact hD1 k hk
    · exact hu
  · intro x hx
    refine ⟨fun hc => (hdisjA x hx).1 (hPKsub x hc), fun hc => ?_⟩
    rcases hDKmem x hc with hc | rfl
    · exact (hdisjA x hx).2 hc
    · exact hnotA hx
  · intro x hx hc
    rcases hDKmem x hc with hc | rfl
    · exact hdisjP x (hPKsub x hx) hc
    · exact hPKnotin hx

theorem RoomInvL_insertPending (A PK DK PK' : List String) (u : String)
    (h : RoomInvL A PK DK) (hu : jsTrim u = u) (hnotA : u ∉ A) (hnotD : u ∉ DK)
    (hPK : ∀ x ∈ PK', x ∈ PK ∨ x = u) (hPKnodup : PK'.Nodup) :
    RoomInvL A PK' DK := by
  obtain ⟨hA1, hA2, hP1, hP2, hD1, hD2, hdisjA, hdisjP⟩ := h
  refine ⟨hA1, hA2, ?_, hPKnodup, hD1, hD2, ?_, ?_⟩
  · intro k hk
    rcases hPK k hk with hk | rfl
    · exact hP1 k hk
    · exact hu
  · intro x hx
    refine ⟨fun hc => ?_, (hdisjA x hx).2⟩
    rcases hPK x hc with hc | rfl
    · exact (hdisjA x hx).1 hc
    · exact hnotA hx
  · intro x hx
    rcases hPK x hx with hx2 | rfl
    · exact hdisjP x hx2
    · exact hnotD

theorem RoomInvL_shrinkPending (A PK DK PK' : List String)
    (h : RoomInvL A PK DK) (hPKsub : ∀ x ∈ PK', x ∈ PK) (hPKnodup : PK'.Nodup) :
    RoomInvL A PK' DK := by
  obtain ⟨hA1, hA2, hP1, hP2, hD1, hD2, hdisjA, hdisjP⟩ := h
  exact ⟨hA1, hA2, fun k hk => hP1 k (hPKsub k hk), hPKnodup, hD1, hD2,
    fun x hx => ⟨fun hc => (hdisjA x hx).1 (hPKsub x hc), (hdisjA x hx).2⟩,
    fun x hx => hdisjP x (hPKsub x hx)⟩

theorem AdmInv_of_eq_fields (st st' : ServerState)
    (ha : st'.approvedUsers = st.approvedUsers)
    (hp : st'.pendingJoinRequests = st.pendingJoinRequests)
    (hd : st'.deniedUsers = st.deniedUsers) (h : AdmInv st) : AdmInv st' := by
  intro r
  have e1 : appList st' r = appList st r := by unfold appList; rw [ha]
  have e2 : pendKeys st' r = pendKeys st r := by unfold pendKeys; rw [hp]
  have e3 : denKeys st' r = denKeys st r := by unfold denKeys; rw [hd]
  rw [e1, e2, e3]
  exact h r

theorem AdmInv_emptyState : AdmInv emptyState := by
  intro r
  refine ⟨?_, ?_, ?_, ?_, ?_, ?_, ?_, ?_⟩ <;>
    simp [appList, pendKeys, denKeys, emptyState, jget]

theorem AdmInv_approveUser (st : ServerState) (r u : String) (h : AdmInv st) :
    AdmInv (approveUser st r u) := by
  intro r'
  by_cases hr : r' = r
  · subst hr
    obtain ⟨hA1, hA2, hP1, hP2, hD1, hD2, hdisjA, hdisjP⟩ := h r'
    have hApp : appList (approveUser st r' u) r' = sadd (appList st r') (normalizeId u) := by
      unfold appList
      rw [approveUser_approvedUsers, jget_jset_self, Option.getD_some]
    have hPKfacts : (∀ x ∈ pendKeys (approveUser st r' u) r', x ∈ pendKeys st r') ∧
        normalizeId u ∉ pendKeys (approveUser st r' u) r' ∧
        (pendKeys (approveUser st r' u) r').Nodup := by
      cases hq : jget st.pendingJoinRequests r' with
      | none =>
          have hPK : pendKeys (approveUser st r' u) r' = pendKeys st r' := by
            unfold pendKeys
            rw [approveUser_pendingJoinRequests]
            simp only [hq]
          have hPKe : pendKeys st r' = [] := by
            unfold pendKeys
            rw [hq]
            rfl
          rw [hPK, hPKe]
          simp
      | some reqs =>
          have hPKst : pendKeys st r' = reqs.map Prod.fst := by
            unfold pendKeys
            rw [hq]
            rfl
          have hPK : pendKeys (approveUser st r' u) r' =
              (delFirstNorm reqs (normalizeId u)).map Prod.fst := by
            unfold pendKeys
            rw [approveUser_pendingJoinRequests, hq]
            dsimp only
            rw [jget_jset_self]
            rfl
          rw [hPK, hPKst]
          rw [hPKst] at hP1 hP2
          exact ⟨fun x hx => ((delFirstNorm_sublist reqs _).map Prod.fst).mem hx,
            not_mem_keys_delFirstNorm reqs _ hP1 hP2,
            List.Nodup.sublist ((delFirstNorm_sublist reqs _).map Prod.fst) hP2⟩
    have hDKfacts : (∀ x ∈ denKeys (approveUser st r' u) r', x ∈ denKeys st r') ∧
        normalizeId u ∉ denKeys (approveUser st r' u) r' ∧
        (denKeys (approveUser st r' u) r').Nodup := by
      cases hq : jget st.deniedUsers r' with
      | none =>
          have hDK : denKeys (approveUser st r' u) r' = denKeys st r' := by
            unfold denKeys
            rw [approveUser_deniedUsers]
            simp only [hq]
          have hDKe : denKeys st r' = [] := by
            unfold denKeys
            rw [hq]
            rfl
          rw [hDK, hDKe]
          simp
      | some den =>
          have hDKst : denKeys st r' = den.map Prod.fst := by
            unfold denKeys
            rw [hq]
            rfl
          have hDK : denKeys (approveUser st r' u) r' =
              (delFirstNorm den (normalizeId u)).map Prod.fst := by
            unfold denKeys
            rw [approveUser_deniedUsers, hq]
            dsimp only
            rw [jget_jset_self]
            rfl
          rw [hDK, hDKst]
          rw [hDKst] at hD1 hD2
          exact ⟨fun x hx => ((delFirstNorm_sublist den _).map Prod.fst).mem hx,
            not_mem_keys_delFirstNorm den _ hD1 hD2,
            List.Nodup.sublist ((delFirstNorm_sublist den _).map Prod.fst) hD2⟩
    rw [hApp]
    exact RoomInvL_approve (appList st r') (pendKeys st r') (denKeys st r') _ _ u (h r')
      hPKfacts.1 hPKfacts.2.1 hPKfacts.2.2 hDKfacts.1 hDKfacts.2.1 hDKfacts.2.2
  · have e1 : appList (approveUser st r u) r' = appList st r' := by
      unfold appList
      rw [approveUser_approvedUsers, jget_jset_ne _ _ _ _ hr]
    have e2 : pendKeys (approveUser st r u) r' = pendKeys st r' := by
      unfold pendKeys
      rw [approveUser_pendingJoinRequests]
      cases hq : jget st.pendingJoinRequests r with
      | none => rfl
      | some reqs =>
          dsimp only
          rw [jget_jset_ne _ _ _ _ hr]
    have e3 : denKeys (approveUser st r u) r' = denKeys st r' := by
      unfold denKeys
      rw [approveUser_deniedUsers]
      cases hq : jget st.deniedUsers r with
      | none => rfl
      | some den =>
          dsimp only
          rw [jget_jset_ne _ _ _ _ hr]
    rw [e1, e2, e3]
    exact h r'

theorem AdmInv_denyUser (st : ServerState) (r u reason : String) (now : Int)
    (h : AdmInv st) (hu : jsTrim u = u) (hnotA : u ∉ appList st r) :
    AdmInv (denyUser st r u reason now) := by
  intro r'
  by_cases hr : r' = r
  · subst hr
    obtain ⟨hA1, hA2, hP1, hP2, hD1, hD2, hdisjA, hdisjP⟩ := h r'
    have hApp : appList (denyUser st r' u reason now) r' = appList st r' := by
      unfold appList
      rw [denyUser_approvedUsers]
    have hDK : denKeys (denyUser st r' u reason now) r' =
        (jset ((jget st.deniedUsers r').getD []) u ⟨now, reason⟩).map Prod.fst := by
      unfold denKeys
      rw [denyUser_deniedUsers, jget_jset_self, Option.getD_some]
    have hPKfacts : (∀ x ∈ pendKeys (denyUser st r' u reason now) r', x ∈ pendKeys st r') ∧
        u ∉ pendKeys (denyUser st r' u reason now) r' ∧
        (pendKeys (denyUser st r' u reason now) r').Nodup := by
      cases hq : jget st.pendingJoinRequests r' with
      | none =>
          have hPK : pendKeys (denyUser st r' u reason now) r' = pendKeys st r' := by
            unfold pendKeys
            rw [denyUser_pendingJoinRequests]
            simp only [hq]
          have hPKe : pendKeys st r' = [] := by
            unfold pendKeys
            rw [hq]
            rfl
          rw [hPK, hPKe]
          simp
      | some reqs =>
          have hPKst : pendKeys st r' = reqs.map Prod.fst := by
            unfold pendKeys
            rw [hq]
            rfl
          have hPK : pendKeys (denyUser st r' u reason now) r' =
              (jdel reqs u).map Prod.fst := by
            unfold pendKeys
            rw [denyUser_pendingJoinRequests, hq]
            dsimp only
            rw [jget_jset_self]
            rfl
          rw [hPK, hPKst]
          rw [hPKst] at hP2
          exact ⟨fun x hx => ((jdel_sublist reqs u).map Prod.fst).mem hx,
            not_mem_keys_jdel reqs u hP2,
            List.Nodup.sublist ((jdel_sublist reqs u).map Prod.fst) hP2⟩
    rw [hApp, hDK]
    refine RoomInvL_deny (appList st r') (pendKeys st r') (denKeys st r') _ _ u (h r')
      hu hnotA hPKfacts.1 hPKfacts.2.1 hPKfacts.2.2 ?_ ?_
    · intro x hx
      exact (mem_keys_jset _ _ _ _).mp hx
    · exact nodup_keys_jset _ u _ hD2
  · have e1 : appList (denyUser st r u reason now) r' = appList st r' := by
      unfold appList
      rw [denyUser_approvedUsers]
    have e2 : pendKeys (denyUser st r u reason now) r' = pendKeys st r' := by
      unfold pendKeys
      rw [denyUser_pendingJoinRequests]
      cases hq : jget st.pendingJoinRequests r with
      | none => rfl
      | some reqs =>
          dsimp only
          rw [jget_jset_ne _ _ _ _ hr]
    have e3 : denKeys (denyUser st r u reason now) r' = denKeys st r' := by
      unfold denKeys
      rw [denyUser_deniedUsers, jget_jset_ne _ _ _ _ hr]
    rw [e1, e2, e3]
    exact h r'

theorem AdmInv_insertPendingState (st : ServerState) (r u : String) (req : PendingRequest)
    (h : AdmInv st) (hu : jsTrim u = u)
    (happ : isApproved st r u = false) (hden : isDenied st r u = false) :
    AdmInv { st with pendingJoinRequests := (jset st.pendingJoinRequests r
      (jset ((jget st.pendingJoinRequests r).getD []) u req)) } := by
  have hnotA : u ∉ appList st r := by
    intro hmem
    have hc : isApproved st r u = true := (isApproved_iff st r u).mpr ⟨u, hmem, rfl⟩
    rw [happ] at hc
    exact absurd hc (by decide)
  have hnotD : u ∉ denKeys st r := by
    intro hmem
    have hc : isDenied st r u = true := (isDenied_iff st r u).mpr ⟨u, hmem, rfl⟩
    rw [hden] at hc
    exact absurd hc (by decide)
  intro r'
  by_cases hr : r' = r
  · subst hr
    obtain ⟨hA1, hA2, hP1, hP2, hD1, hD2, hdisjA, hdisjP⟩ := h r'
    have hPK : pendKeys { st with pendingJoinRequests := (jset st.pendingJoinRequests r'
        (jset ((jget st.pendingJoinRequests r').getD []) u req)) } r' =
        (jset ((jget st.pendingJoinRequests r').getD []) u req).map Prod.fst := by
      unfold pendKeys
      dsimp only
      rw [jget_jset_self]
      rfl
    rw [hPK]
    exact RoomInvL_insertPending (appList st r') (pendKeys st r') (denKeys st r') _ u
      (h r') hu hnotA hnotD (fun x hx => (mem_keys_jset _ _ _ _).mp hx)
      (nodup_keys_jset _ u _ hP2)
  · have e2 : pendKeys { st with pendingJoinRequests := (jset st.pendingJoinRequests r
        (jset ((jget st.pendingJoinRequests r).getD []) u req)) } r' = pendKeys st r' := by
      unfold pendKeys
      dsimp only
      rw [jget_jset_ne _ _ _ _ hr]
    rw [e2]
    exact h r'

theorem AdmInv_jdelPendingState (st : ServerState) (r k : String)
    (reqs : JMap PendingRequest) (hq : jget st.pendingJoinRequests r = some reqs)
    (h : AdmInv st) :
    AdmInv { st with pendingJoinRequests :=
      (jset st.pendingJoinRequests r (jdel reqs k)) } := by
  intro r'
  by_cases hr : r' = r
  · subst hr
    obtain ⟨hA1, hA2, hP1, hP2, hD1, hD2, hdisjA, hdisjP⟩ := h r'
    have hPKst : pendKeys st r' = reqs.map Prod.fst := by
      unfold pendKeys
      rw [hq]
      rfl
    have hPK : pendKeys { st with pendingJoinRequests :=
        (jset st.pendingJoinRequests r' (jdel reqs k)) } r' = (jdel reqs k).map Prod.fst := by
      unfold pendKeys
      dsimp only
      rw [jget_jset_self]
      rfl
    rw [hPK]
    rw [hPKst] at hP2
    exact RoomInvL_shrinkPending (appList st r') (pendKeys st r') (denKeys st r') _ (h r')
      (fun x hx => by
        rw [hPKst]
        exact ((jdel_sublist reqs k).map Prod.fst).mem hx)
      (List.Nodup.sublist ((jdel_sublist reqs k).map Prod.fst) hP2)
  · have e2 : pendKeys { st with pendingJoinRequests :=
        (jset st.pendingJoinRequests r (jdel reqs k)) } r' = pendKeys st r' := by
      unfold pendKeys
      dsimp only
      rw [jget_jset_ne _ _ _ _ hr]
    rw [e2]
    exact h r'

theorem AdmInv_clearPendingState (st : ServerState) (r : String) (h : AdmInv st) :
    AdmInv { st with pendingJoinRequests := (jset st.pendingJoinRequests r []) } := by
  intro r'
  by_cases hr : r' = r
  · subst hr
    have hPK : pendKeys { st with pendingJoinRequests :=
        (jset st.pendingJoinRequests r' []) } r' = [] := by
      unfold pendKeys
      dsimp only
      rw [jget_jset_self]
      rfl
    rw [hPK]
    exact RoomInvL_shrinkPending (appList st r') (pendKeys st r') (denKeys st r') _ (h r')
      (fun x hx => absurd hx (List.not_mem_nil x)) List.nodup_nil
  · have e2 : pendKeys { st with pendingJoinRequests :=
        (jset st.pendingJoinRequests r []) } r' = pendKeys st r' := by
      unfold pendKeys
      dsimp only
      rw [jget_jset_ne _ _ _ _ hr]
    rw [e2]
    exact h r'

theorem updateHostSocketId_approvedUsers (st : ServerState) (r sid : String) :
    (updateHostSocketId st r sid).approvedUsers = st.approvedUsers := by
  unfold updateHostSocketId
  cases jget st.roomMetadata r <;> rfl

theorem updateHostSocketId_pendingJoinRequests (st : ServerState) (r sid : String) :
    (updateHostSocketId st r sid).pendingJoinRequests = st.pendingJoinRequests := by
  unfold updateHostSocketId
  cases jget st.roomMetadata r <;> rfl

theorem updateHostSocketId_deniedUsers (st : ServerState) (r sid : String) :
    (updateHostSocketId st r sid).deniedUsers = st.deniedUsers := by
  unfold updateHostSocketId
  cases jget st.roomMetadata r <;> rfl

theorem AdmInv_requestJoinRoom (st : ServerState) (sid r u n : String) (rej : Bool)
    (now : Int) (h : AdmInv st) (hu : jsTrim u = u) :
    AdmInv (requestJoinRoom st sid r u n rej now).1 := by
  unfold requestJoinRoom
  dsimp only
  split
  next hden => exact AdmInv_of_eq_fields st _ rfl rfl rfl h
  next hden =>
    split
    next hq => exact AdmInv_approveUser _ r u (AdmInv_of_eq_fields st _ rfl rfl rfl h)
    next m hq =>
      split
      next hhost =>
        exact AdmInv_approveUser _ r u (AdmInv_of_eq_fields st _
          (updateHostSocketId_approvedUsers _ _ _)
          (updateHostSocketId_pendingJoinRequests _ _ _)
          (updateHostSocketId_deniedUsers _ _ _) h)
      next hhost =>
        split
        next happ => exact AdmInv_of_eq_fields st _ rfl rfl rfl h
        next happ =>
          split
          next hpend => exact AdmInv_of_eq_fields st _ rfl rfl rfl h
          next hpend =>
            simp only [Bool.not_eq_true] at hden happ
            split
            next hs hmatch =>
              split
              next htr =>
                exact AdmInv_insertPendingState
                  { st with socketUserMap := (jset st.socketUserMap sid ⟨u, some n, r⟩) }
                  r u ⟨u, n, some sid, now, "pending"⟩
                  (AdmInv_of_eq_fields st _ rfl rfl rfl h) hu happ hden
              next htr =>
                exact AdmInv_insertPendingState
                  { st with socketUserMap := (jset st.socketUserMap sid ⟨u, some n, r⟩) }
                  r u ⟨u, n, some sid, now, "pending"⟩
                  (AdmInv_of_eq_fields st _ rfl rfl rfl h) hu happ hden
            next hmatch =>
              exact AdmInv_insertPendingState
                { st with socketUserMap := (jset st.socketUserMap sid ⟨u, some n, r⟩) }
                r u ⟨u, n, some sid, now, "pending"⟩
                (AdmInv_of_eq_fields st _ rfl rfl rfl h) hu happ hden

theorem AdmInv_approveJoinRequest (st : ServerState) (sid r u a : String) (h : AdmInv st) :
    AdmInv (approveJoinRequest st sid r u a).1 := by
  unfold approveJoinRequest
  dsimp only
  split
  next hq => exact h
  next m hq =>
    split
    next hfail => exact h
    next hfail =>
      have hS : AdmInv (socketJoin
          { updateHostSocketId st r sid with
              socketUserMap := (jset (updateHostSocketId st r sid).socketUserMap sid
                ⟨a, none, r⟩) } sid r) :=
        AdmInv_of_eq_fields st _
          (updateHostSocketId_approvedUsers _ _ _)
          (updateHostSocketId_pendingJoinRequests _ _ _)
          (updateHostSocketId_deniedUsers _ _ _) h
      split
      next hf => exact hS
      next requestKey request hf =>
        have hA : AdmInv (approveUser (socketJoin
            { updateHostSocketId st r sid with
                socketUserMap := (jset (updateHostSocketId st r sid).socketUserMap sid
                  ⟨a, none, r⟩) } sid r) r u) :=
          AdmInv_approveUser _ r u hS
        split
        next hq2 => exact hA
        next reqs2 hq2 => exact AdmInv_jdelPendingState _ r requestKey reqs2 hq2 hA

theorem AdmInv_denyJoinRequest (st : ServerState) (sid r u reason a : String) (now : Int)
    (h : AdmInv st) (hu : jsTrim u = u) :
    AdmInv (denyJoinRequest st sid r u reason a now).1 := by
  unfold denyJoinRequest
  dsimp only
  split
  next hq => exact h
  next m hq =>
    split
    next hfail => exact h
    next hfail =>
      have hS : AdmInv ({ updateHostSocketId st r sid with
          socketUserMap := (jset (updateHostSocketId st r sid).socketUserMap sid
            ⟨a, none, r⟩) }) :=
        AdmInv_of_eq_fields st _
          (updateHostSocketId_approvedUsers _ _ _)
          (updateHostSocketId_pendingJoinRequests _ _ _)
          (updateHostSocketId_deniedUsers _ _ _) h
      split
      next hf => exact hS
      next requestKey request hf =>
        have hkmem : requestKey ∈ pendKeys st r ∧ normalizeId requestKey = normalizeId u := by
          have h0 := mem_keys_of_findFirstNorm _ _ requestKey request hf
          rwa [updateHostSocketId_pendingJoinRequests] at h0
        have hku : requestKey = u := by
          obtain ⟨hmem, hnorm⟩ := hkmem
          obtain ⟨hA1, hA2, hP1, hP2, hD1, hD2, hdisjA, hdisjP⟩ := h r
          have htk : jsTrim requestKey = requestKey := hP1 requestKey hmem
          calc requestKey = jsTrim requestKey := htk.symm
            _ = jsTrim u := hnorm
            _ = u := hu
        have humem : u ∈ pendKeys st r := hku ▸ hkmem.1
        have hnotA : u ∉ appList st r := by
          intro hc
          obtain ⟨hA1, hA2, hP1, hP2, hD1, hD2, hdisjA, hdisjP⟩ := h r
          exact (hdisjA u hc).1 humem
        have hnotA2 : u ∉ appList ({ updateHostSocketId st r sid with
            socketUserMap := (jset (updateHostSocketId st r sid).socketUserMap sid
              ⟨a, none, r⟩) }) r := by
          have e : appList ({ updateHostSocketId st r sid with
              socketUserMap := (jset (updateHostSocketId st r sid).socketUserMap sid
                ⟨a, none, r⟩) }) r = appList st r := by
            unfold appList
            dsimp only
            rw [updateHostSocketId_approvedUsers]
          rw [e]
          exact hnotA
        have hD : AdmInv (denyUser ({ updateHostSocketId st r sid with
            socketUserMap := (jset (updateHostSocketId st r sid).socketUserMap sid
              ⟨a, none, r⟩) }) r u
            (if reason = "" then "The host has denied your request to join." else reason)
            now) :=
          AdmInv_denyUser _ r u _ now hS hu hnotA2
        split
        next hq2 => exact hD
        next reqs2 hq2 => exact AdmInv_jdelPendingState _ r requestKey reqs2 hq2 hD

theorem AdmInv_admitFold (roomId : String) (l : JMap PendingRequest) :
    ∀ acc : ServerState × List Emit, AdmInv acc.1 →
      AdmInv (List.foldl (fun (acc : ServerState × List Emit) (p : String × PendingRequest) =>
        (approveUser acc.1 roomId p.1,
         match p.2.socketId with
         | some sid => acc.2 ++ [⟨Dest.socket sid, Msg.joinApproved roomId false none
             "The host has admitted you to the meeting."⟩]
         | none => acc.2)) acc l).1 := by
  induction l with
  | nil => exact fun acc hacc => hacc
  | cons p rest ih =>
      intro acc hacc
      exact ih _ (AdmInv_approveUser _ _ _ hacc)

theorem AdmInv_admitAllWaiting (st : ServerState) (sid r a : String) (h : AdmInv st) :
    AdmInv (admitAllWaiting st sid r a).1 := by
  unfold admitAllWaiting
  dsimp only
  split
  next hq => exact h
  next m hq =>
    split
    next hfail => exact h
    next hfail =>
      have hS : AdmInv ({ updateHostSocketId st r sid with
          socketUserMap := (jset (updateHostSocketId st r sid).socketUserMap sid
            ⟨a, none, r⟩) }) :=
        AdmInv_of_eq_fields st _
          (updateHostSocketId_approvedUsers _ _ _)
          (updateHostSocketId_pendingJoinRequests _ _ _)
          (updateHostSocketId_deniedUsers _ _ _) h
      split
      next hq2 => exact hS
      next requests hq2 =>
        split
        next hlen => exact hS
        next hlen =>
          exact AdmInv_clearPendingState _ r (AdmInv_admitFold r requests _ hS)

theorem AdmInv_step (st : ServerState) (e : AdmissionEvent)
    (h : AdmInv st) (he : storedIdsTrimmed e) : AdmInv (stepAdmission st e) := by
  cases e with
  | requestJoin sid r u n rej now => exact AdmInv_requestJoinRoom st sid r u n rej now h he
  | approve sid r u a => exact AdmInv_approveJoinRequest st sid r u a h
  | deny sid r u reason a now => exact AdmInv_denyJoinRequest st sid r u reason a now h he
  | admitAll sid r a => exact AdmInv_admitAllWaiting st sid r a h

theorem AdmInv_runAdmission (st : ServerState) (es : List AdmissionEvent) (h : AdmInv st)
    (he : ∀ e ∈ es, storedIdsTrimmed e) : AdmInv (runAdmission st es) := by
  induction es generalizing st with
  | nil => exact h
  | cons e rest ih =>
      exact ih (stepAdmission st e) (AdmInv_step st e h (he e (by simp)))
        (fun e' h' => he e' (by simp [h']))

theorem not_inPending_of_no_norm (st : ServerState) (r u : String)
    (h : ∀ x ∈ pendKeys st r, normalizeId x ≠ normalizeId u) :
    inPendingSet st r u = false := by
  rw [Bool.eq_false_iff]
  intro hc
  obtain ⟨x, hx, hn⟩ := (inPendingSet_iff st r u).mp hc
  exact h x hx hn

theorem not_isDenied_of_no_norm (st : ServerState) (r u : String)
    (h : ∀ x ∈ denKeys st r, normalizeId x ≠ normalizeId u) :
    isDenied st r u = false := by
  rw [Bool.eq_false_iff]
  intro hc
  obtain ⟨x, hx, hn⟩ := (isDenied_iff st r u).mp hc
  exact h x hx hn

theorem exclusive_of_AdmInv (st : ServerState) (h : AdmInv st) (r u : String) :
    ¬ (isApproved st r u = true ∧ inPendingSet st r u = true) ∧
    ¬ (isApproved st r u = true ∧ isDenied st r u = true) ∧
    ¬ (inPendingSet st r u = true ∧ isDenied st r u = true) := by
  obtain ⟨hA1, hA2, hP1, hP2, hD1, hD2, hdisjA, hdisjP⟩ := h r
  refine ⟨?_, ?_, ?_⟩
  · rintro ⟨ha, hp⟩
    have hA := (mem_trim_iff _ hA1 u).mp ((isApproved_iff st r u).mp ha)
    have hP := (mem_trim_iff _ hP1 u).mp ((inPendingSet_iff st r u).mp hp)
    exact (hdisjA _ hA).1 hP
  · rintro ⟨ha, hd⟩
    have hA := (mem_trim_iff _ hA1 u).mp ((isApproved_iff st r u).mp ha)
    have hD := (mem_trim_iff _ hD1 u).mp ((isDenied_iff st r u).mp hd)
    exact (hdisjA _ hA).2 hD
  · rintro ⟨hp, hd⟩
    have hP := (mem_trim_iff _ hP1 u).mp ((inPendingSet_iff st r u).mp hp)
    have hD := (mem_trim_iff _ hD1 u).mp ((isDenied_iff st r u).mp hd)
    exact hdisjP _ hP hD

theorem approve_moves_core (st0 : ServerState) (r u requestKey : String)
    (reqs : JMap PendingRequest)
    (htrimP : ∀ k ∈ reqs.map Prod.fst, jsTrim k = k)
    (hndP : (reqs.map Prod.fst).Nodup)
    (htrimD : ∀ k ∈ denKeys st0 r, jsTrim k = k)
    (hndD : (denKeys st0 r).Nodup) :
    isApproved ({ approveUser st0 r u with
        pendingJoinRequests := (jset (approveUser st0 r u).pendingJoinRequests r
          (jdel (delFirstNorm reqs (normalizeId u)) requestKey)) }) r u = true ∧
    inPendingSet ({ approveUser st0 r u with
        pendingJoinRequests := (jset (approveUser st0 r u).pendingJoinRequests r
          (jdel (delFirstNorm reqs (normalizeId u)) requestKey)) }) r u = false ∧
    isDenied ({ approveUser st0 r u with
        pendingJoinRequests := (jset (approveUser st0 r u).pendingJoinRequests r
          (jdel (delFirstNorm reqs (normalizeId u)) requestKey)) }) r u = false := by
  refine ⟨isApproved_approveUser_self st0 r u, ?_, ?_⟩
  · apply not_inPending_of_no_norm
    intro x hx hn
    have e : pendKeys ({ approveUser st0 r u with
        pendingJoinRequests := (jset (approveUser st0 r u).pendingJoinRequests r
          (jdel (delFirstNorm reqs (normalizeId u)) requestKey)) }) r =
        (jdel (delFirstNorm reqs (normalizeId u)) requestKey).map Prod.fst := by
      unfold pendKeys
      dsimp only
      rw [jget_jset_self]
      rfl
    rw [e] at hx
    have hx1 : x ∈ (delFirstNorm reqs (normalizeId u)).map Prod.fst :=
      ((jdel_sublist _ requestKey).map Prod.fst).mem hx
    have hx2 : x ∈ reqs.map Prod.fst :=
      ((delFirstNorm_sublist reqs _).map Prod.fst).mem hx1
    have hxt : jsTrim x = x := htrimP x hx2
    have hxeq : x = normalizeId u := by
      have hh : normalizeId x = x := hxt
      rw [← hh]
      exact hn
    rw [hxeq] at hx1
    exact not_mem_keys_delFirstNorm reqs (normalizeId u) htrimP hndP hx1
  · apply not_isDenied_of_no_norm
    intro x hx hn
    have e0 : denKeys ({ approveUser st0 r u with
        pendingJoinRequests := (jset (approveUser st0 r u).pendingJoinRequests r
          (jdel (delFirstNorm reqs (normalizeId u)) requestKey)) }) r =
        denKeys (approveUser st0 r u) r := rfl
    rw [e0] at hx
    cases hdq : jget st0.deniedUsers r with
    | none =>
        have e1 : denKeys (approveUser st0 r u) r = denKeys st0 r := by
          unfold denKeys
          rw [approveUser_deniedUsers]
          simp only [hdq]
        have e2 : denKeys st0 r = [] := by
          unfold denKeys
          rw [hdq]
          rfl
        rw [e1, e2] at hx
        simp at hx
    | some den =>
        have hdst : denKeys st0 r = den.map Prod.fst := by
          unfold denKeys
          rw [hdq]
          rfl
        have e1 : denKeys (approveUser st0 r u) r =
            (delFirstNorm den (normalizeId u)).map Prod.fst := by
          unfold denKeys
          rw [approveUser_deniedUsers, hdq]
          dsimp only
          rw [jget_jset_self]
          rfl
        rw [e1] at hx
        rw [hdst] at htrimD hndD
        have hx2 : x ∈ den.map Prod.fst :=
          ((delFirstNorm_sublist den _).map Prod.fst).mem hx
        have hxt : jsTrim x = x := htrimD x hx2
        have hxeq : x = normalizeId u := by
          have hh : normalizeId x = x := hxt
          rw [← hh]
          exact hn
        rw [hxeq] at hx
        exact not_mem_keys_delFirstNorm den (normalizeId u) htrimD hndD hx

theorem deny_moves_core (st0 : ServerState) (r u reason requestKey : String) (now : Int)
    (reqs : JMap PendingRequest)
    (htrimP : ∀ k ∈ reqs.map Prod.fst, jsTrim k = k)
    (hndP : (reqs.map Prod.fst).Nodup)
    (hkey : requestKey = normalizeId u) :
    isDenied ({ denyUser st0 r u reason now with
        pendingJoinRequests := (jset (denyUser st0 r u reason now).pendingJoinRequests r
          (jdel (jdel reqs u) requestKey)) }) r u = true ∧
    inPendingSet ({ denyUser st0 r u reason now with
        pendingJoinRequests := (jset (denyUser st0 r u reason now).pendingJoinRequests r
          (jdel (jdel reqs u) requestKey)) }) r u = false := by
  constructor
  · apply (isDenied_iff _ r u).mpr
    refine ⟨u, ?_, rfl⟩
    have e : denKeys ({ denyUser st0 r u reason now with
        pendingJoinRequests := (jset (denyUser st0 r u reason now).pendingJoinRequests r
          (jdel (jdel reqs u) requestKey)) }) r =
        (jset ((jget st0.deniedUsers r).getD []) u ⟨now, reason⟩).map Prod.fst := by
      unfold denKeys
      dsimp only
      rw [denyUser_deniedUsers, jget_jset_self]
      rfl
    rw [e]
    exact (mem_keys_jset _ _ _ _).mpr (Or.inr rfl)
  · apply not_inPending_of_no_norm
    intro x hx hn
    have e : pendKeys ({ denyUser st0 r u reason now with
        pendingJoinRequests := (jset (denyUser st0 r u reason now).pendingJoinRequests r
          (jdel (jdel reqs u) requestKey)) }) r =
        (jdel (jdel reqs u) requestKey).map Prod.fst := by
      unfold pendKeys
      dsimp only
      rw [jget_jset_self]
      rfl
    rw [e] at hx
    have hx1 : x ∈ (jdel reqs u).map Prod.fst :=
      ((jdel_sublist _ requestKey).map Prod.fst).mem hx
    have hx2 : x ∈ reqs.map Prod.fst :=
      ((jdel_sublist reqs u).map Prod.fst).mem hx1
    have hxt : jsTrim x = x := htrimP x hx2
    have hxeq : x = normalizeId u := by
      have hh : normalizeId x = x := hxt
      rw [← hh]
      exact hn
    have hnd1 : ((jdel reqs u).map Prod.fst).Nodup :=
      List.Nodup.sublist ((jdel_sublist reqs u).map Prod.fst) hndP
    rw [hxeq, ← hkey] at hx
    exact not_mem_keys_jdel (jdel reqs u) requestKey hnd1 hx

theorem approve_moves (st : ServerState) (hInv : AdmInv st) (sid r u a : String)
    (hsucc : emitsProcessed (approveJoinRequest st sid r u a).2 "approved" = true) :
    isApproved (approveJoinRequest st sid r u a).1 r u = true ∧
    inPendingSet (approveJoinRequest st sid r u a).1 r u = false ∧
    isDenied (approveJoinRequest st sid r u a).1 r u = false := by
  cases hq : jget st.roomMetadata r with
  | none =>
      have hstep : approveJoinRequest st sid r u a =
          (st, [⟨Dest.socket sid, Msg.errorMsg "Room not found."⟩]) := by
        unfold approveJoinRequest
        rw [hq]
      rw [hstep] at hsucc
      simp [emitsProcessed] at hsucc
  | some m =>
      by_cases hauth : (strTruthy a && (normalizeId a = normalizeId m.hostUserId : Bool)) = true
      · have hargeq : ((jget (socketJoin
            { updateHostSocketId st r sid with
                socketUserMap := (jset (updateHostSocketId st r sid).socketUserMap sid
                  ⟨a, none, r⟩) } sid r).pendingJoinRequests r).getD []) =
            ((jget st.pendingJoinRequests r).getD []) := by
          rw [show (socketJoin
            { updateHostSocketId st r sid with
                socketUserMap := (jset (updateHostSocketId st r sid).socketUserMap sid
                  ⟨a, none, r⟩) } sid r).pendingJoinRequests =
              st.pendingJoinRequests from updateHostSocketId_pendingJoinRequests st r sid]
        cases hf : findFirstNorm ((jget st.pendingJoinRequests r).getD []) (normalizeId u) with
        | none =>
            have hstep : approveJoinRequest st sid r u a =
                ((socketJoin
                  { updateHostSocketId st r sid with
                      socketUserMap := (jset (updateHostSocketId st r sid).socketUserMap sid
                        ⟨a, none, r⟩) } sid r),
                 [⟨Dest.socket sid,
                    Msg.errorMsg "Join request not found or already processed."⟩]) := by
              unfold approveJoinRequest
              rw [hq]
              dsimp only
              rw [if_neg (fun hcon => hcon hauth)]
              rw [hargeq, hf]
            rw [hstep] at hsucc
            simp [emitsProcessed] at hsucc
        | some kv =>
            obtain ⟨requestKey, request⟩ := kv
            obtain ⟨reqs, hpq⟩ : ∃ reqs, jget st.pendingJoinRequests r = some reqs := by
              cases hpq0 : jget st.pendingJoinRequests r with
              | none =>
                  rw [hpq0] at hf
                  simp [findFirstNorm] at hf
              | some reqs => exact ⟨reqs, rfl⟩
            have hgd : ((jget st.pendingJoinRequests r).getD []) = reqs := by
              rw [hpq]
              rfl
            have hstep : (approveJoinRequest st sid r u a).1 =
                { approveUser (socketJoin
                    { updateHostSocketId st r sid with
                        socketUserMap := (jset (updateHostSocketId st r sid).socketUserMap sid
                          ⟨a, none, r⟩) } sid r) r u with
                  pendingJoinRequests := (jset (approveUser (socketJoin
                    { updateHostSocketId st r sid with
                        socketUserMap := (jset (updateHostSocketId st r sid).socketUserMap sid
                          ⟨a, none, r⟩) } sid r) r u).pendingJoinRequests r
                    (jdel (delFirstNorm reqs (normalizeId u)) requestKey)) } := by
              unfold approveJoinRequest
              rw [hq]
              dsimp only
              rw [if_neg (fun hcon => hcon hauth)]
              rw [hargeq, hf]
              dsimp only
              rw [show (approveUser (socketJoin
                  { updateHostSocketId st r sid with
                      socketUserMap := (jset (updateHostSocketId st r sid).socketUserMap sid
                        ⟨a, none, r⟩) } sid r) r u).pendingJoinRequests =
                  jset st.pendingJoinRequests r (delFirstNorm reqs (normalizeId u)) from by
                rw [approveUser_pendingJoinRequests]
                rw [show (socketJoin
                  { updateHostSocketId st r sid with
                      socketUserMap := (jset (updateHostSocketId st r sid).socketUserMap sid
                        ⟨a, none, r⟩) } sid r).pendingJoinRequests =
                    st.pendingJoinRequests from updateHostSocketId_pendingJoinRequests st r sid]
                rw [hpq]]
              rw [jget_jset_self]
            rw [hstep]
            obtain ⟨hA1, hA2, hP1, hP2, hD1, hD2, hdisjA, hdisjP⟩ := hInv r
            have hPst : pendKeys st r = reqs.map Prod.fst := by
              unfold pendKeys
              rw [hpq]
              rfl
            rw [hPst] at hP1 hP2
            have hDeq : denKeys (socketJoin
                { updateHostSocketId st r sid with
                    socketUserMap := (jset (updateHostSocketId st r sid).socketUserMap sid
                      ⟨a, none, r⟩) } sid r) r = denKeys st r := by
              unfold denKeys
              rw [show (socketJoin
                { updateHostSocketId st r sid with
                    socketUserMap := (jset (updateHostSocketId st r sid).socketUserMap sid
                      ⟨a, none, r⟩) } sid r).deniedUsers =
                  st.deniedUsers from updateHostSocketId_deniedUsers st r sid]
            exact approve_moves_core _ r u requestKey reqs hP1 hP2
              (by rw [hDeq]; exact hD1) (by rw [hDeq]; exact hD2)
      · have hstep : approveJoinRequest st sid r u a =
            (st, [⟨Dest.socket sid,
              Msg.errorMsg "Only the host can approve join requests."⟩]) := by
          unfold approveJoinRequest
          rw [hq]
          dsimp only
          rw [if_pos (fun hcon => hauth hcon)]
        rw [hstep] at hsucc
        simp [emitsProcessed] at hsucc


theorem deny_moves (st : ServerState) (hInv : AdmInv st) (sid r u reason a : String)
    (now : Int)
    (hsucc : emitsProcessed (denyJoinRequest st sid r u reason a now).2 "denied" = true) :
    isDenied (denyJoinRequest st sid r u reason a now).1 r u = true ∧
    inPendingSet (denyJoinRequest st sid r u reason a now).1 r u = false := by
  cases hq : jget st.roomMetadata r with
  | none =>
      have hstep : denyJoinRequest st sid r u reason a now =
          (st, [⟨Dest.socket sid, Msg.errorMsg "Room not found."⟩]) := by
        unfold denyJoinRequest
        rw [hq]
      rw [hstep] at hsucc
      simp [emitsProcessed] at hsucc
  | some m =>
      by_cases hauth : (strTruthy a && (normalizeId a = normalizeId m.hostUserId : Bool)) = true
      · have hargeq : ((jget ({ updateHostSocketId st r sid with
            socketUserMap := (jset (updateHostSocketId st r sid).socketUserMap sid
              ⟨a, none, r⟩) } : ServerState).pendingJoinRequests r).getD []) =
            ((jget st.pendingJoinRequests r).getD []) := by
          rw [show ({ updateHostSocketId st r sid with
              socketUserMap := (jset (updateHostSocketId st r sid).socketUserMap sid
                ⟨a, none, r⟩) } : ServerState).pendingJoinRequests =
              st.pendingJoinRequests from updateHostSocketId_pendingJoinRequests st r sid]
        cases hf : findFirstNorm ((jget st.pendingJoinRequests r).getD []) (normalizeId u) with
        | none =>
            have hstep : denyJoinRequest st sid r u reason a now =
                (({ updateHostSocketId st r sid with
                    socketUserMap := (jset (updateHostSocketId st r sid).socketUserMap sid
                      ⟨a, none, r⟩) } : ServerState),
                 [⟨Dest.socket sid,
                    Msg.errorMsg "Join request not found or already processed."⟩]) := by
              unfold denyJoinRequest
              rw [hq]
              dsimp only
              rw [if_neg (fun hcon => hcon hauth)]
              rw [hargeq, hf]
            rw [hstep] at hsucc
            simp [emitsProcessed] at hsucc
        | some kv =>
            obtain ⟨requestKey, request⟩ := kv
            obtain ⟨reqs, hpq⟩ : ∃ reqs, jget st.pendingJoinRequests r = some reqs := by
              cases hpq0 : jget st.pendingJoinRequests r with
              | none =>
                  rw [hpq0] at hf
                  simp [findFirstNorm] at hf
              | some reqs => exact ⟨reqs, rfl⟩
            obtain ⟨hA1, hA2, hP1, hP2, hD1, hD2, hdisjA, hdisjP⟩ := hInv r
            have hPst : pendKeys st r = reqs.map Prod.fst := by
              unfold pendKeys
              rw [hpq]
              rfl
            rw [hPst] at hP1 hP2
            have hkmem : requestKey ∈ reqs.map Prod.fst ∧
                normalizeId requestKey = normalizeId u := by
              have h0 := mem_keys_of_findFirstNorm _ _ requestKey request hf
              rwa [hpq] at h0
            have hkey : requestKey = normalizeId u := by
              have htk : jsTrim requestKey = requestKey := hP1 requestKey hkmem.1
              rw [← htk]
              exact hkmem.2
            have hstep : (denyJoinRequest st sid r u reason a now).1 =
                { denyUser ({ updateHostSocketId st r sid with
                    socketUserMap := (jset (updateHostSocketId st r sid).socketUserMap sid
                      ⟨a, none, r⟩) } : ServerState) r u
                    (if reason = "" then "The host has denied your request to join."
                     else reason) now with
                  pendingJoinRequests := (jset (denyUser ({ updateHostSocketId st r sid with
                    socketUserMap := (jset (updateHostSocketId st r sid).socketUserMap sid
                      ⟨a, none, r⟩) } : ServerState) r u
                    (if reason = "" then "The host has denied your request to join."
                     else reason) now).pendingJoinRequests r
                    (jdel (jdel reqs u) requestKey)) } := by
              unfold denyJoinRequest
              rw [hq]
              dsimp only
              rw [if_neg (fun hcon => hcon hauth)]
              rw [hargeq, hf]
              dsimp only
              rw [show (denyUser ({ updateHostSocketId st r sid with
                  socketUserMap := (jset (updateHostSocketId st r sid).socketUserMap sid
                    ⟨a, none, r⟩) } : ServerState) r u
                  (if reason = "" then "The host has denied your request to join."
                   else reason) now).pendingJoinRequests =
                  jset st.pendingJoinRequests r (jdel reqs u) from by
                rw [denyUser_pendingJoinRequests]
                rw [show ({ updateHostSocketId st r sid with
                    socketUserMap := (jset (updateHostSocketId st r sid).socketUserMap sid
                      ⟨a, none, r⟩) } : ServerState).pendingJoinRequests =
                    st.pendingJoinRequests from updateHostSocketId_pendingJoinRequests st r sid]
                rw [hpq]]
              rw [jget_jset_self]
            rw [hstep]
            exact deny_moves_core _ r u _ requestKey now reqs hP1 hP2 hkey
      · have hstep : denyJoinRequest st sid r u reason a now =
            (st, [⟨Dest.socket sid,
              Msg.errorMsg "Only the host can deny join requests."⟩]) := by
          unfold denyJoinRequest
          rw [hq]
          dsimp only
          rw [if_pos (fun hcon => hauth hcon)]
        rw [hstep] at hsucc
        simp [emitsProcessed] at hsucc

end AdmInvLemmas

/-- C5 counterexample: user ids that differ only in surrounding whitespace
break the exclusivity invariant.  After host h creates room R, guest x
requests to join twice — once as "x" and once as " x" (the raw-keyed
duplicate check misses the second) — and the host denies "x".  The denial
removes only one of the two pending entries, leaving the same normalized
user simultaneously in pending_requests (key " x") and denied_users (key
"x"). -/
theorem C5_counterexample :
    (let stA := runAdmission emptyState
      [AdmissionEvent.requestJoin "H" "R" "h" "Host" false 0,
       AdmissionEvent.requestJoin "G1" "R" "x" "Guest" false 0,
       AdmissionEvent.requestJoin "G2" "R" " x" "Guest" false 1,
       AdmissionEvent.deny "H" "R" "x" "" "h" 2]
     inPendingSet stA "R" "x" = true ∧ isDenied stA "R" "x" = true) := by
  decide

/-- C5 (amended): provided every id stored raw as a map key (the oduserId of
each request-join-room and deny-join-request event) is whitespace-trimmed,
then after any sequence of RequestJoin, Approve, Deny and AdmitAll events
from the empty state every UserID is in at most one of approved_users,
pending_requests and denied_users (under the normalized identity the server
uses); moreover from such a state a successful approval leaves its target
approved and neither pending nor denied, and a successful denial leaves its
target denied and not pending. -/
theorem C5_amended (es : List AdmissionEvent) (hes : ∀ e ∈ es, storedIdsTrimmed e) :
    (∀ r u,
      ¬ (isApproved (runAdmission emptyState es) r u = true ∧
         inPendingSet (runAdmission emptyState es) r u = true) ∧
      ¬ (isApproved (runAdmission emptyState es) r u = true ∧
         isDenied (runAdmission emptyState es) r u = true) ∧
      ¬ (inPendingSet (runAdmission emptyState es) r u = true ∧
         isDenied (runAdmission emptyState es) r u = true)) ∧
    (∀ sid r u a,
      emitsProcessed (approveJoinRequest (runAdmission emptyState es) sid r u a).2
        "approved" = true →
      isApproved (approveJoinRequest (runAdmission emptyState es) sid r u a).1 r u = true ∧
      inPendingSet (approveJoinRequest (runAdmission emptyState es) sid r u a).1 r u = false ∧
      isDenied (approveJoinRequest (runAdmission emptyState es) sid r u a).1 r u = false) ∧
    (∀ sid r u reason a now,
      emitsProcessed (denyJoinRequest (runAdmission emptyState es) sid r u reason a now).2
        "denied" = true →
      isDenied (denyJoinRequest (runAdmission emptyState es) sid r u reason a now).1 r u =
        true ∧
      inPendingSet (denyJoinRequest (runAdmission emptyState es) sid r u reason a now).1 r u =
        false) := by
  have hInv := AdmInv_runAdmission emptyState es AdmInv_emptyState hes
  exact ⟨fun r u => exclusive_of_AdmInv _ hInv r u,
    fun sid r u a hsucc => approve_moves _ hInv sid r u a hsucc,
    fun sid r u reason a now hsucc => deny_moves _ hInv sid r u reason a now hsucc⟩

/-- C5 witness: the amended theorem applied to a trimmed-id scenario — host h
creates room R, guest g requests, the host approves; exclusivity holds and
the approval moves g from pending to approved. -/
theorem C5_witness :
    (∀ e ∈ [AdmissionEvent.requestJoin "H" "R" "h" "Host" false 0,
            AdmissionEvent.requestJoin "G" "R" "g" "Guest" false 1],
       storedIdsTrimmed e) ∧
    (let st := runAdmission emptyState
        [AdmissionEvent.requestJoin "H" "R" "h" "Host" false 0,
         AdmissionEvent.requestJoin "G" "R" "g" "Guest" false 1]
     (¬ (isApproved st "R" "g" = true ∧ inPendingSet st "R" "g" = true)) ∧
     emitsProcessed (approveJoinRequest st "H" "R" "g" "h").2 "approved" = true ∧
     (isApproved (approveJoinRequest st "H" "R" "g" "h").1 "R" "g" = true ∧
      inPendingSet (approveJoinRequest st "H" "R" "g" "h").1 "R" "g" = false ∧
      isDenied (approveJoinRequest st "H" "R" "g" "h").1 "R" "g" = false)) := by
  have hes : ∀ e ∈ [AdmissionEvent.requestJoin "H" "R" "h" "Host" false 0,
      AdmissionEvent.requestJoin "G" "R" "g" "Guest" false 1], storedIdsTrimmed e := by
    intro e he
    fin_cases he <;> exact rfl
  have hmain := C5_amended
    [AdmissionEvent.requestJoin "H" "R" "h" "Host" false 0,
     AdmissionEvent.requestJoin "G" "R" "g" "Guest" false 1] hes
  refine ⟨hes, (hmain.1 "R" "g").1, by decide, ?_⟩
  exact hmain.2.1 "H" "R" "g" "h" (by decide)

end MyMeet
